import Mathlib

/-! file-service: version store, share-link gatekeeper, permissions, access
requests and aggregate accounting

A shallow embedding of the handlers of `cmd/server/features.go` and
`cmd/server/features2.go` that allocate, list, delete and restore versions,
create, resolve and remove share links, grant, list and revoke permissions,
create and review access requests, compute quota, statistics and duplicates,
move files into and out of the trash, and validate comments, tags and
reactions.  Every MongoDB
collection is a list of documents in insertion (natural) order; a handler is a
function from the store, the request and the values it draws from its
environment (driver-generated ObjectIDs, `time.Now()`) to the new store and
the HTTP response.
-/

namespace FileService

/-! ## Primitive types -/

/-- A `primitive.ObjectID`: the 12 bytes read as one big-endian number. -/
abbrev ObjectID := Nat

/-- A `time.Time`, as a number of nanoseconds since the epoch. -/
abbrev Time := Int

/-- Largest value of Go's `int` on a 64-bit platform. -/
def maxInt : Int := 2 ^ 63 - 1

/-- Smallest value of Go's `int` on a 64-bit platform. -/
def minInt : Int := -(2 ^ 63)

/-- Two's-complement wrap-around of Go's 64-bit `int` arithmetic. -/
def wrapInt (x : Int) : Int := (x + 2 ^ 63) % 2 ^ 64 - 2 ^ 63

/-- Value of one hexadecimal digit, either case, as `encoding/hex` reads it. -/
def hexVal (c : Char) : Option Nat :=
  let n := c.toNat
  if 48 ≤ n ∧ n ≤ 57 then some (n - 48)
  else if 97 ≤ n ∧ n ≤ 102 then some (n - 87)
  else if 65 ≤ n ∧ n ≤ 70 then some (n - 55)
  else none

/-- Big-endian value of a string of hexadecimal digits, `none` on a bad digit. -/
def decodeHex : List Char → Nat → Option Nat
  | [], acc => some acc
  | c :: cs, acc =>
    match hexVal c with
    | none => none
    | some d => decodeHex cs (acc * 16 + d)

/-- The driver's `primitive.ObjectIDFromHex`: exactly 24 hexadecimal digits. -/
def ObjectIDFromHex (s : String) : Option ObjectID :=
  if s.data.length = 24 then decodeHex s.data 0 else none

/-- One lower-case hexadecimal digit. -/
def hexDigit (n : Nat) : Char :=
  if n < 10 then Char.ofNat (48 + n) else Char.ofNat (87 + n)

/-- The driver's `ObjectID.Hex`: 24 lower-case hexadecimal digits. -/
def ObjectID.Hex (o : ObjectID) : String :=
  String.mk ((List.range 24).map fun i => hexDigit (o / 16 ^ (23 - i) % 16))

/-! ## Documents -/

/-- Go struct `FileVersion`. -/
structure FileVersion where
  ID : ObjectID := 0
  FileID : String := ""
  VersionNum : Int := 0
  StorageKey : String := ""
  Size : Int := 0
  Checksum : String := ""
  UploadedBy : String := ""
  Comment : String := ""
  CreatedAt : Time := 0
  deriving DecidableEq, Repr

/-- Go struct `FileActivity`. -/
structure FileActivity where
  ID : ObjectID := 0
  FileID : String := ""
  UserID : String := ""
  Action : String := ""
  Details : String := ""
  CreatedAt : Time := 0
  deriving DecidableEq, Repr

/-- Go struct `FileLink`. -/
structure FileLink where
  ID : ObjectID := 0
  FileID : String := ""
  Token : String := ""
  CreatedBy : String := ""
  ExpiresAt : Option Time := none
  MaxViews : Int := 0
  Views : Int := 0
  Password : String := ""
  IsActive : Bool := false
  CreatedAt : Time := 0
  deriving DecidableEq, Repr

/-- Go struct `FilePermission`. -/
structure FilePermission where
  ID : ObjectID := 0
  FileID : String := ""
  UserID : String := ""
  Permission : String := ""
  GrantedBy : String := ""
  ExpiresAt : Option Time := none
  CreatedAt : Time := 0
  deriving DecidableEq, Repr

/-- Go struct `FileAccessRequest`; the source comments `Status` with
`pending, approved, denied`. -/
structure FileAccessRequest where
  ID : ObjectID := 0
  FileID : String := ""
  RequesterID : String := ""
  Reason : String := ""
  Status : String := ""
  ReviewedBy : String := ""
  CreatedAt : Time := 0
  ReviewedAt : Option Time := none
  deriving DecidableEq, Repr

/-- Go struct `FileComment`. -/
structure FileComment where
  ID : ObjectID := 0
  FileID : String := ""
  UserID : String := ""
  Content : String := ""
  ParentID : String := ""
  CreatedAt : Time := 0
  UpdatedAt : Time := 0
  deriving DecidableEq, Repr

/-- Go struct `FileTag`. -/
structure FileTag where
  ID : ObjectID := 0
  FileID : String := ""
  Tag : String := ""
  AddedBy : String := ""
  CreatedAt : Time := 0
  deriving DecidableEq, Repr

/-- Go struct `FileReaction`. -/
structure FileReaction where
  ID : ObjectID := 0
  FileID : String := ""
  UserID : String := ""
  Emoji : String := ""
  CreatedAt : Time := 0
  deriving DecidableEq, Repr

/-- Modelled from the spec: the Go struct `File` is declared outside the
handler files; the record carries the fields the data model lists for the
external File (`file_id`, `storage_key`, `size`, `checksum`, `channel_id`,
`workspace_id`, `deleted_at`) and the further document keys the handlers
read or write (`_id`, `updated_at`, `status`, `original_name`, `uploaded_by`,
`metadata.size`). -/
structure File where
  ID : ObjectID := 0
  FileID : String := ""
  StorageKey : String := ""
  Size : Int := 0
  Checksum : String := ""
  ChannelID : String := ""
  WorkspaceID : String := ""
  DeletedAt : Option Time := none
  UpdatedAt : Time := 0
  Status : String := ""
  OriginalName : String := ""
  UploadedBy : String := ""
  MetadataSize : Option Int := none
  deriving DecidableEq, Repr

/-- The persisted state: one list per MongoDB collection the handlers use. -/
structure Store where
  files : List File := []
  versions : List FileVersion := []
  activity : List FileActivity := []
  links : List FileLink := []
  permissions : List FilePermission := []
  accessRequests : List FileAccessRequest := []
  comments : List FileComment := []
  tags : List FileTag := []
  reactions : List FileReaction := []
  deriving DecidableEq, Repr

/-! ## Requests and responses -/

/-- The part of `gin.Context` the handlers read: path parameters, query
parameters and request headers. -/
structure Context where
  Param : String → String
  Query : String → String
  GetHeader : String → String := fun _ => ""

/-- What a handler writes with `c.JSON`. -/
inductive Response (α : Type) where
  | success (status : Nat) (data : Option α) (message : Option String)
  | failure (status : Nat) (error : String)
  deriving DecidableEq, Repr

/-- HTTP status of a response. -/
def Response.status {α : Type} : Response α → Nat
  | .success st _ _ => st
  | .failure st _ => st

/-! ## Collection primitives -/

/-- `FindOne` with an equality filter: first matching document. -/
def findOne {α : Type} (p : α → Bool) (col : List α) : Option α :=
  col.find? p

/-- `UpdateOne`: rewrites the first matching document, if any. -/
def updateOne {α : Type} (p : α → Bool) (f : α → α) : List α → List α
  | [] => []
  | x :: xs => if p x then f x :: xs else x :: updateOne p f xs

/-- `DeleteOne`: removes the first matching document, if any. -/
def deleteOne {α : Type} (p : α → Bool) : List α → List α
  | [] => []
  | x :: xs => if p x then xs else x :: deleteOne p xs

/-- `InsertOne`: appends the document; the unique index on `_id` rejects a
document whose id is already stored. -/
def insertOne {α : Type} (key : α → ObjectID) (doc : α) (col : List α) :
    Except String (List α) :=
  if col.any (fun d => key d == key doc) then
    .error "E11000 duplicate key error"
  else
    .ok (col ++ [doc])

/-- `FindOne` on `file_versions` sorted by `version_num` descending: a stored
version with the greatest number. -/
def maxByVersionNum : List FileVersion → Option FileVersion
  | [] => none
  | v :: vs =>
    match maxByVersionNum vs with
    | none => some v
    | some w => if v.VersionNum < w.VersionNum then some w else some v

/-! ## Activity log -/

/-- Go `logFileActivity`: best-effort insert, the error is dropped. -/
def logFileActivity (s : Store) (fileID userID action details : String)
    (logOid : ObjectID) (logNow : Time) : Store :=
  match insertOne FileActivity.ID
      { ID := logOid, FileID := fileID, UserID := userID, Action := action,
        Details := details, CreatedAt := logNow } s.activity with
  | .ok col => { s with activity := col }
  | .error _ => s

/-! ## Version handlers -/

/-- First half of Go `createVersion`: read the current maximum and compute
`nextVer`. -/
def nextVersionNum (s : Store) (fileID : String) : Int :=
  match maxByVersionNum (s.versions.filter fun v => v.FileID == fileID) with
  | none => 1
  | some maxVer => wrapInt (maxVer.VersionNum + 1)

/-- Second half of Go `createVersion`: insert the version numbered `nextVer`,
log the activity, answer 201. -/
def insertVersion (s : Store) (c : Context) (comment : String) (nextVer : Int)
    (oid : ObjectID) (now : Time) (logOid : ObjectID) (logNow : Time) :
    Store × Response FileVersion :=
  let fileID := c.Param "id"
  let version : FileVersion :=
    { ID := oid, FileID := fileID, VersionNum := nextVer,
      UploadedBy := c.Query "user_id", Comment := comment, CreatedAt := now }
  match insertOne FileVersion.ID version s.versions with
  | .error e => (s, .failure 500 e)
  | .ok col =>
    (logFileActivity { s with versions := col } fileID (c.Query "user_id")
        "version_created" comment logOid logNow,
      .success 201 (some version) none)

/-- Go `createVersion`. -/
def createVersion (s : Store) (c : Context) (comment : String)
    (oid : ObjectID) (now : Time) (logOid : ObjectID) (logNow : Time) :
    Store × Response FileVersion :=
  insertVersion s c comment (nextVersionNum s (c.Param "id")) oid now logOid logNow

/-- Go `deleteVersion`. -/
def deleteVersion (s : Store) (c : Context) : Store × Response Unit :=
  match ObjectIDFromHex (c.Param "versionId") with
  | none => (s, .failure 400 "invalid version ID")
  | some versionID =>
    ({ s with versions := deleteOne (fun v => v.ID == versionID) s.versions },
      .success 200 none none)

/-- Go `restoreVersion`. -/
def restoreVersion (s : Store) (c : Context) (now : Time)
    (logOid : ObjectID) (logNow : Time) : Store × Response Unit :=
  match ObjectIDFromHex (c.Param "versionId") with
  | none => (s, .failure 400 "invalid version ID")
  | some versionID =>
    match findOne (fun v => v.ID == versionID) s.versions with
    | none => (s, .failure 404 "version not found")
    | some version =>
      let files := updateOne (fun f => f.FileID == version.FileID)
        (fun f => { f with StorageKey := version.StorageKey, Size := version.Size,
                           Checksum := version.Checksum, UpdatedAt := now })
        s.files
      (logFileActivity { s with files := files } version.FileID (c.Query "user_id")
          "version_restored" (toString version.VersionNum) logOid logNow,
        .success 200 none (some "version restored"))

/-! ## Share-link handlers -/

/-- The `$inc` of `views` by one on a stored 64-bit integer: the server
refuses an increment that would overflow and leaves the document as it is. -/
def incViews (l : FileLink) : FileLink :=
  if l.Views + 1 ≤ maxInt then { l with Views := l.Views + 1 } else l

/-- Go `createShareLink`; `maxViews` and `password` are the bound request
body, `tokenOid` the `primitive.NewObjectID()` the token is printed from.  The
handler drops the insert error and dereferences the result, which is nil
after a failed insert: the request then panics, taken here as a bare status
500 that leaves the store as it was. -/
def createShareLink (s : Store) (c : Context) (maxViews : Int) (password : String)
    (tokenOid : ObjectID) (now : Time) (oid : ObjectID) :
    Store × Response FileLink :=
  let link : FileLink :=
    { ID := oid, FileID := c.Param "id", Token := ObjectID.Hex tokenOid,
      CreatedBy := c.Query "user_id", MaxViews := maxViews, Password := password,
      IsActive := true, CreatedAt := now }
  match insertOne FileLink.ID link s.links with
  | .error _ => (s, .failure 500 "")
  | .ok col => ({ s with links := col }, .success 201 (some link) none)

/-- Go `accessSharedFile`. -/
def accessSharedFile (s : Store) (c : Context) : Store × Response File :=
  let token := c.Param "token"
  match findOne (fun l => l.Token == token && l.IsActive == true) s.links with
  | none => (s, .failure 404 "link not found or expired")
  | some link =>
    let s1 := { s with links := updateOne (fun l => l.ID == link.ID) incViews s.links }
    match findOne (fun f => f.FileID == link.FileID) s1.files with
    | none => (s1, .failure 404 "file not found")
    | some file => (s1, .success 200 (some file) none)

/-! ## Sequential and interleaved runs of the version handlers -/

/-- Value bound to `key` in a list of request parameters; the empty string
when absent, as `c.Param` and `c.Query` answer. -/
def lookupParam (kvs : List (String × String)) (key : String) : String :=
  match kvs.find? (fun kv => kv.1 == key) with
  | some kv => kv.2
  | none => ""

/-- A request context with the given path and query parameters. -/
def mkContext (params query : List (String × String)) : Context :=
  { Param := lookupParam params, Query := lookupParam query }

/-- One call of a handler that writes the versions collection. -/
inductive VersionOp where
  | create (c : Context) (comment : String) (oid : ObjectID) (now : Time)
      (logOid : ObjectID) (logNow : Time)
  | delete (c : Context)

/-- The store after one handler call. -/
def applyVersionOp (s : Store) : VersionOp → Store
  | .create c comment oid now logOid logNow =>
    (createVersion s c comment oid now logOid logNow).1
  | .delete c => (deleteVersion s c).1

/-- The store after a series of handler calls, one after the other. -/
def runVersionOps (s : Store) (ops : List VersionOp) : Store :=
  ops.foldl applyVersionOp s

/-- The versions of one file, in the order they were inserted. -/
def versionsOf (s : Store) (fileID : String) : List FileVersion :=
  s.versions.filter fun v => v.FileID == fileID

/-- Invariant of sequential runs: every stored number lies in `1..n` and the
numbers of one file increase along the insertion order. -/
def VersionsOrdered (n : Int) (vs : List FileVersion) : Prop :=
  (∀ v ∈ vs, 1 ≤ v.VersionNum ∧ v.VersionNum ≤ n) ∧
  ∀ fileID : String,
    (vs.filter fun v => v.FileID == fileID).Pairwise
      (fun a b => a.VersionNum < b.VersionNum)

/-! ## Sample data -/

/-- A request on file `F` by user `alice`. -/
def demoContext : Context := mkContext [("id", "F")] [("user_id", "alice")]

/-- A store where file `F` has versions 1 and 3 (2 was deleted) and file `G`
has version 7. -/
def demoStore : Store :=
  { files := [{ ID := 50, FileID := "F", StorageKey := "k0", Size := 10, Checksum := "abc" }],
    versions :=
      [{ ID := 1, FileID := "F", VersionNum := 1, StorageKey := "k1", Size := 11,
         Checksum := "c1" },
       { ID := 2, FileID := "G", VersionNum := 7 },
       { ID := 3, FileID := "F", VersionNum := 3, StorageKey := "k3", Size := 13,
         Checksum := "c3" }] }

/-- A sequential run on file `F`: two versions, the first deleted, a third
created, then a version of file `G`. -/
def demoOps : List VersionOp :=
  [.create demoContext "initial" 1 100 2 100,
   .create demoContext "edit" 3 200 4 200,
   .delete (mkContext [("id", "F"), ("versionId", ObjectID.Hex 1)] []),
   .create demoContext "again" 5 300 6 300,
   .create (mkContext [("id", "G")] [("user_id", "bob")]) "other" 7 400 8 400]

/-! ## Interleaved `createVersion` requests -/

/-- The inputs of one `createVersion` request. -/
structure CreateVersionCall where
  c : Context
  comment : String
  oid : ObjectID
  now : Time
  logOid : ObjectID
  logNow : Time

/-- A step of an interleaved run: request `i` performs its read of the current
maximum (`FindOne`) or its write (`InsertOne` and the rest of the handler). -/
inductive RaceStep where
  | readMax (i : Nat)
  | insert (i : Nat)
  deriving DecidableEq, Repr

/-- The store together with the `nextVer` local of every request in flight. -/
structure RaceState where
  store : Store
  nextVer : List (Option Int)

/-- One step of an interleaved run. -/
def raceStep (calls : List CreateVersionCall) (st : RaceState) : RaceStep → RaceState
  | .readMax i =>
    match calls[i]? with
    | none => st
    | some call =>
      { st with nextVer :=
          st.nextVer.set i (some (nextVersionNum st.store (call.c.Param "id"))) }
  | .insert i =>
    match calls[i]?, st.nextVer.getD i none with
    | some call, some n =>
      { st with store :=
          (insertVersion st.store call.c call.comment n call.oid call.now
            call.logOid call.logNow).1 }
    | _, _ => st

/-- The store after the steps of a schedule, from store `s`. -/
def runRace (calls : List CreateVersionCall) (s : Store) (steps : List RaceStep) : Store :=
  (steps.foldl (raceStep calls) { store := s, nextVer := calls.map fun _ => none }).store

/-- A schedule is an interleaving of `n` requests when every request reads
once, inserts once, and reads before it inserts. -/
def isInterleaving (n : Nat) (steps : List RaceStep) : Bool :=
  steps.length == 2 * n &&
  (List.range n).all fun i =>
    steps.count (.readMax i) == 1 && steps.count (.insert i) == 1 &&
    decide (steps.indexOf (RaceStep.readMax i) < steps.indexOf (RaceStep.insert i))

/-- Two requests for a new version of file `F`. -/
def raceCalls : List CreateVersionCall :=
  [{ c := demoContext, comment := "a", oid := 1, now := 100, logOid := 2, logNow := 100 },
   { c := mkContext [("id", "F")] [("user_id", "bob")], comment := "b", oid := 3,
     now := 101, logOid := 4, logNow := 101 }]

/-- Both requests read the maximum before either inserts. -/
def raceSchedule : List RaceStep :=
  [.readMax 0, .readMax 1, .insert 0, .insert 1]

/-! ## Sample data for restore and share links -/

/-- The file `F` as first uploaded. -/
def demoFile : File :=
  { ID := 50, FileID := "F", StorageKey := "k0", Size := 10, Checksum := "abc" }

/-- A store holding only the file `F`. -/
def fileOnlyStore : Store := { files := [demoFile] }

/-- The store after version 1 (comment `initial`) and version 2 (comment
`edit`) of `F` were created. -/
def twoVersionsStore : Store :=
  (createVersion (createVersion fileOnlyStore demoContext "initial" 1 100 2 100).1
    demoContext "edit" 3 200 4 200).1

/-- A restore request naming the version with id 1. -/
def restoreContext : Context :=
  mkContext [("id", "F"), ("versionId", ObjectID.Hex 1)] [("user_id", "alice")]

/-- A restore request naming an id that no version has. -/
def restoreMissingContext : Context :=
  mkContext [("id", "F"), ("versionId", ObjectID.Hex 77)] [("user_id", "alice")]

/-- An access request carrying the token of the link made from ObjectID 4096
and, as a query parameter, the password `wrong`. -/
def accessContext : Context :=
  mkContext [("token", ObjectID.Hex 4096)] [("password", "wrong")]

/-- A store whose only link to `F` is active, unviewed, and expired at time 50. -/
def expiredLinkStore : Store :=
  { files := [demoFile],
    links := [{ ID := 9, FileID := "F", Token := ObjectID.Hex 4096, CreatedBy := "alice",
                ExpiresAt := some 50, IsActive := true, CreatedAt := 10 }] }

/-- The store after `createShareLink` on `F` with `max_views = 1`, no password. -/
def oneViewLinkStore : Store :=
  (createShareLink fileOnlyStore demoContext 1 "" 4096 10 9).1

/-- The store after `createShareLink` on `F` with password `secret`. -/
def passwordLinkStore : Store :=
  (createShareLink fileOnlyStore demoContext 0 "secret" 4096 10 9).1

/-- A store whose only link with the requested token was revoked. -/
def inactiveLinkStore : Store :=
  { files := [demoFile],
    links := [{ ID := 9, FileID := "F", Token := ObjectID.Hex 4096, IsActive := false },
              { ID := 10, FileID := "F", Token := ObjectID.Hex 4097, IsActive := true }] }

/-! ## Share-link listing and removal -/

/-- The driver's `primitive.NilObjectID`, which `ObjectIDFromHex` returns
together with its error. -/
def NilObjectID : ObjectID := 0

/-- Go `listShareLinks`. -/
def listShareLinks (s : Store) (c : Context) : Response (List FileLink) :=
  .success 200 (some (s.links.filter fun l => l.FileID == c.Param "id")) none

/-- Go `deleteShareLink`; the parse error of the id is dropped. -/
def deleteShareLink (s : Store) (c : Context) : Store × Response Unit :=
  let linkID := (ObjectIDFromHex (c.Param "linkId")).getD NilObjectID
  ({ s with links := deleteOne (fun l => l.ID == linkID) s.links },
    .success 200 none none)

/-! ## Permission handlers -/

/-- Go `listPermissions`. -/
def listPermissions (s : Store) (c : Context) : Response (List FilePermission) :=
  .success 200 (some (s.permissions.filter fun p => p.FileID == c.Param "id")) none

/-- Go `grantPermission`; `userID` and `permission` are the two fields of the
bound request body, both tagged `binding:"required"`, so the binding fails
when one of them is missing or empty.  The insert error is dropped and the
result dereferenced, as in `createShareLink`. -/
def grantPermission (s : Store) (c : Context) (userID permission : String)
    (oid : ObjectID) (now : Time) : Store × Response FilePermission :=
  if userID = "" ∨ permission = "" then
    (s, .failure 400 "field validation failed on the required tag")
  else
    let perm : FilePermission :=
      { ID := oid, FileID := c.Param "id", UserID := userID, Permission := permission,
        GrantedBy := c.Query "user_id", CreatedAt := now }
    match insertOne FilePermission.ID perm s.permissions with
    | .error _ => (s, .failure 500 "")
    | .ok col => ({ s with permissions := col }, .success 201 (some perm) none)

/-- Go `revokePermission`; the parse error of the id is dropped. -/
def revokePermission (s : Store) (c : Context) : Store × Response Unit :=
  let permID := (ObjectIDFromHex (c.Param "permissionId")).getD NilObjectID
  ({ s with permissions := deleteOne (fun p => p.ID == permID) s.permissions },
    .success 200 none none)

/-! ## Access-request handlers -/

/-- Go `createAccessRequest`; `reason` is the bound request body, whose
binding error is dropped. -/
def createAccessRequest (s : Store) (c : Context) (reason : String)
    (oid : ObjectID) (now : Time) : Store × Response FileAccessRequest :=
  let ar : FileAccessRequest :=
    { ID := oid, FileID := c.Param "id", RequesterID := c.GetHeader "X-User-ID",
      Reason := reason, Status := "pending", CreatedAt := now }
  match insertOne FileAccessRequest.ID ar s.accessRequests with
  | .error e => (s, .failure 500 e)
  | .ok col => ({ s with accessRequests := col }, .success 201 (some ar) none)

/-- Go `reviewAccessRequest`; `body` is `none` for a request body that does not
bind and else the `status` field it carries (empty when absent).  The parse
error of the id is dropped. -/
def reviewAccessRequest (s : Store) (c : Context) (body : Option String)
    (now : Time) : Store × Response Unit :=
  match body with
  | none => (s, .failure 400 "invalid request body")
  | some status =>
    let objID := (ObjectIDFromHex (c.Param "requestId")).getD NilObjectID
    let reqs := updateOne (fun r => r.ID == objID)
      (fun r => { r with Status := status, ReviewedBy := c.GetHeader "X-User-ID",
                         ReviewedAt := some now })
      s.accessRequests
    ({ s with accessRequests := reqs }, .success 200 none none)

/-- One call of a handler that writes the access-request collection. -/
inductive AccessRequestOp where
  | create (c : Context) (reason : String) (oid : ObjectID) (now : Time)
  | review (c : Context) (body : Option String) (now : Time)

/-- The store after one access-request handler call. -/
def applyAccessRequestOp (s : Store) : AccessRequestOp → Store
  | .create c reason oid now => (createAccessRequest s c reason oid now).1
  | .review c body now => (reviewAccessRequest s c body now).1

/-- The store after a series of access-request handler calls. -/
def runAccessRequestOps (s : Store) (ops : List AccessRequestOp) : Store :=
  ops.foldl applyAccessRequestOp s

/-! ## ObjectID generation -/

/-- The driver's `primitive.NewObjectID`: four bytes of Unix seconds, the five
bytes drawn once when the process starts, and the low three bytes of the
process counter after its increment. -/
def NewObjectID (unixSeconds processUnique counter : Nat) : ObjectID :=
  unixSeconds % 2 ^ 32 * 2 ^ 64 + processUnique % 2 ^ 40 * 2 ^ 24
    + (counter + 1) % 2 ^ 24

/-- What an observer of one issued token computes for the token of the next
link of the same process, created in second `unixSeconds`: the new timestamp,
the same five process bytes, and the counter advanced by the two ObjectIDs
drawn since (the id of the issued link and the next token). -/
def predictToken (issued : String) (unixSeconds : Nat) : Option String :=
  match ObjectIDFromHex issued with
  | none => none
  | some o =>
    some (ObjectID.Hex
      (unixSeconds % 2 ^ 32 * 2 ^ 64 + o % 2 ^ 64 / 2 ^ 24 * 2 ^ 24
        + (o % 2 ^ 24 + 2) % 2 ^ 24))

/-! ## Sample data for links, permissions and access requests -/

/-- A request context with path parameters, query parameters and headers. -/
def mkContextWithHeaders (params query headers : List (String × String)) : Context :=
  { Param := lookupParam params, Query := lookupParam query,
    GetHeader := lookupParam headers }

/-- A store with two active links to `F`, the first viewed three times. -/
def twoLinksStore : Store :=
  { files := [demoFile],
    links := [{ ID := 9, FileID := "F", Token := ObjectID.Hex 4096, CreatedBy := "alice",
                MaxViews := 0, Views := 3, IsActive := true, CreatedAt := 10 },
              { ID := 10, FileID := "F", Token := ObjectID.Hex 4097, CreatedBy := "bob",
                MaxViews := 5, Views := 1, Password := "pw", IsActive := true,
                CreatedAt := 20 }] }

/-- A store whose only link points to a file `G` that has no File record. -/
def danglingLinkStore : Store :=
  { files := [demoFile],
    links := [{ ID := 9, FileID := "G", Token := ObjectID.Hex 4096, CreatedBy := "alice",
                IsActive := true, CreatedAt := 10 }] }

/-- A request to remove the link with id 9 of file `F`. -/
def removeLinkContext : Context :=
  mkContext [("id", "F"), ("linkId", ObjectID.Hex 9)] [("user_id", "alice")]

/-- Two links created one after the other by one process whose counter stands
at 16 and whose process bytes are `a1b2c3d4e5`: each call draws one ObjectID
for the token and the driver one more for the `_id`. -/
def consecutiveLinksStore : Store :=
  (createShareLink
    (createShareLink fileOnlyStore demoContext 0 ""
      (NewObjectID 1700000000 0xa1b2c3d4e5 16) 1700000000000000000
      (NewObjectID 1700000000 0xa1b2c3d4e5 17)).1
    demoContext 0 ""
    (NewObjectID 1700000060 0xa1b2c3d4e5 18) 1700000060000000000
    (NewObjectID 1700000060 0xa1b2c3d4e5 19)).1

/-- A store with two grants on `F`; the grant of `bob` expired at time 50. -/
def grantsStore : Store :=
  { files := [demoFile],
    permissions :=
      [{ ID := 31, FileID := "F", UserID := "bob", Permission := "read",
         GrantedBy := "alice", ExpiresAt := some 50, CreatedAt := 10 },
       { ID := 32, FileID := "F", UserID := "carol", Permission := "write",
         GrantedBy := "alice", CreatedAt := 20 }] }

/-- A request to revoke the grant with id 31. -/
def revokeContext : Context :=
  mkContext [("id", "F"), ("permissionId", ObjectID.Hex 31)] [("user_id", "alice")]

/-- A store with one access request on `F`, approved by `bob` at time 500. -/
def reviewedStore : Store :=
  { files := [demoFile],
    accessRequests :=
      [{ ID := 21, FileID := "F", RequesterID := "dave", Reason := "need it",
         Status := "approved", ReviewedBy := "bob", CreatedAt := 400,
         ReviewedAt := some 500 }] }

/-- A review of the request with id 21 by `carol`. -/
def reviewContext : Context :=
  mkContextWithHeaders [("id", "F"), ("requestId", ObjectID.Hex 21)] []
    [("X-User-ID", "carol")]

/-- A request for access to `F` by `dave`. -/
def requestContext : Context :=
  mkContextWithHeaders [("id", "F")] [] [("X-User-ID", "dave")]

/-- One access request is created, then reviewed with the status `banana`. -/
def bananaOps : List AccessRequestOp :=
  [.create requestContext "need it" 21 400, .review reviewContext (some "banana") 900]

/-! ## Version listing -/

/-- Insertion into a list ordered by `version_num` descending, before the
first version whose number is not larger. -/
def insertByVersionNumDesc (v : FileVersion) : List FileVersion → List FileVersion
  | [] => [v]
  | w :: ws =>
    if w.VersionNum ≤ v.VersionNum then v :: w :: ws
    else w :: insertByVersionNumDesc v ws

/-- The sort `{version_num: -1}` of a `Find`. -/
def sortByVersionNumDesc : List FileVersion → List FileVersion
  | [] => []
  | v :: vs => insertByVersionNumDesc v (sortByVersionNumDesc vs)

/-- Go `listVersions`. -/
def listVersions (s : Store) (c : Context) : Response (List FileVersion) :=
  .success 200
    (some (sortByVersionNumDesc (s.versions.filter fun v => v.FileID == c.Param "id")))
    none

/-! ## Aggregate accounting -/

/-- A numeric value as an aggregation stage returns it and the driver decodes
it into `bson.M`: `int32`, `int64` or `float64`. -/
inductive BsonNumber where
  | int32 (v : Int)
  | int64 (v : Int)
  | double
  deriving DecidableEq, Repr

/-- The `$sum` of 64-bit integers: a 64-bit integer when the total fits, else
a double. -/
def sumLong (xs : List Int) : BsonNumber :=
  if minInt ≤ xs.sum ∧ xs.sum ≤ maxInt then .int64 xs.sum else .double

/-- The `$sum` of the 32-bit constant 1 over `n` documents: a 32-bit integer
when the count fits, else a 64-bit integer. -/
def sumOnes (n : Nat) : BsonNumber :=
  if (n : Int) ≤ 2 ^ 31 - 1 then .int32 n else .int64 n

/-- The `data` object of Go `getStorageQuota`. -/
structure StorageQuota where
  workspace_id : String
  total_size : Int
  file_count : Int
  quota_limit : Int
  deriving DecidableEq, Repr

/-- Go `getStorageQuota`: the `$match` on `workspace_id` and `deleted_at: nil`,
the `$group` that yields one document unless nothing matched, and the type
assertions on its two fields.  The `size` of a File is a 64-bit integer, as
`restoreVersion` writes it. -/
def getStorageQuota (s : Store) (c : Context) : Response StorageQuota :=
  let workspaceID := c.Param "workspaceId"
  let matched := s.files.filter fun f => f.WorkspaceID == workspaceID && f.DeletedAt.isNone
  let result : List (BsonNumber × BsonNumber) :=
    if matched.isEmpty then []
    else [(sumLong (matched.map fun f => f.Size), sumOnes matched.length)]
  let totalSize : Int :=
    match result with
    | (.int64 v, _) :: _ => v
    | _ => 0
  let fileCount : Int :=
    match result with
    | (_, .int32 v) :: _ => v
    | _ => 0
  .success 200
    (some { workspace_id := workspaceID, total_size := totalSize,
            file_count := fileCount, quota_limit := 10 * 1024 * 1024 * 1024 })
    none

/-- The `data` object of Go `getWorkspaceFileStats`. -/
structure WorkspaceFileStats where
  total_files : Int
  total_size : Int
  deriving DecidableEq, Repr

/-- Go `getWorkspaceFileStats`: a count and a `$sum` of `metadata.size` over
the files of the workspace whose `status` is not `deleted`; a document without
`metadata.size` adds nothing, and a total that does not decode into `int64`
leaves the zero value. -/
def getWorkspaceFileStats (s : Store) (c : Context) : Response WorkspaceFileStats :=
  let wsID := c.Param "workspaceId"
  let matched := s.files.filter fun f => f.WorkspaceID == wsID && f.Status != "deleted"
  let total : Int := matched.length
  let sum : Int := (matched.filterMap fun f => f.MetadataSize).sum
  let totalSize : Int :=
    if matched.isEmpty then 0
    else if minInt ≤ sum ∧ sum ≤ maxInt then sum else 0
  .success 200 (some { total_files := total, total_size := totalSize }) none

/-- Go `findDuplicates`. -/
def findDuplicates (s : Store) (c : Context) : Response (List File) :=
  let fileID := c.Param "id"
  match findOne (fun f => f.FileID == fileID) s.files with
  | none => .failure 404 "file not found"
  | some file =>
    .success 200
      (some (s.files.filter fun g => g.Checksum == file.Checksum && g.FileID != fileID))
      none

/-! ## Trash -/

/-- Go `bulkDeleteFiles`; `body` is `none` for a request body that does not
bind and else the `ids` it carries.  Ids that are not ObjectIDs are skipped;
the response counts all submitted ids. -/
def bulkDeleteFiles (s : Store) (body : Option (List String)) (now : Time) :
    Store × Response Nat :=
  match body with
  | none => (s, .failure 400 "invalid request body")
  | some ids =>
    let objIDs := ids.filterMap ObjectIDFromHex
    let files := s.files.map fun f =>
      if objIDs.contains f.ID then { f with Status := "deleted", DeletedAt := some now }
      else f
    ({ s with files := files }, .success 200 (some ids.length) none)

/-- Go `restoreFromTrash`. -/
def restoreFromTrash (s : Store) (c : Context) (now : Time) : Store × Response Unit :=
  let fileID := c.Param "id"
  let files := updateOne (fun f => f.FileID == fileID)
    (fun f => { f with DeletedAt := none, UpdatedAt := now }) s.files
  ({ s with files := files }, .success 200 none (some "file restored"))

/-! ## Comments, tags and reactions -/

/-- Go `createComment`; `content` and `parentID` are the fields of the bound
request body, `content` tagged `binding:"required"`.  The two timestamps are
the two `time.Now()` calls.  The insert error is dropped and the result
dereferenced, as in `createShareLink`. -/
def createComment (s : Store) (c : Context) (content parentID : String)
    (oid : ObjectID) (createdNow updatedNow : Time) (logOid : ObjectID) (logNow : Time) :
    Store × Response FileComment :=
  let fileID := c.Param "id"
  if content = "" then
    (s, .failure 400 "field validation failed on the required tag")
  else
    let comment : FileComment :=
      { ID := oid, FileID := fileID, UserID := c.Query "user_id", Content := content,
        ParentID := parentID, CreatedAt := createdNow, UpdatedAt := updatedNow }
    match insertOne FileComment.ID comment s.comments with
    | .error _ => (s, .failure 500 "")
    | .ok col =>
      (logFileActivity { s with comments := col } fileID (c.Query "user_id")
          "comment_added" "" logOid logNow,
        .success 201 (some comment) none)

/-- Go `addTag`; `tag` is the field of the bound request body, tagged
`binding:"required"`.  The insert error is dropped. -/
def addTag (s : Store) (c : Context) (tag : String) (oid : ObjectID) (now : Time) :
    Store × Response Unit :=
  if tag = "" then
    (s, .failure 400 "field validation failed on the required tag")
  else
    match insertOne FileTag.ID
        { ID := oid, FileID := c.Param "id", Tag := tag, AddedBy := c.Query "user_id",
          CreatedAt := now } s.tags with
    | .error _ => (s, .success 201 none none)
    | .ok col => ({ s with tags := col }, .success 201 none none)

/-- Go `addFileReaction`; `body` is `none` for a request body that does not
bind and else the `emoji` field it carries (empty when absent): the field has
no `binding` tag. -/
def addFileReaction (s : Store) (c : Context) (body : Option String)
    (oid : ObjectID) (now : Time) : Store × Response FileReaction :=
  match body with
  | none => (s, .failure 400 "invalid request body")
  | some emoji =>
    let r : FileReaction :=
      { ID := oid, FileID := c.Param "id", UserID := c.GetHeader "X-User-ID",
        Emoji := emoji, CreatedAt := now }
    match insertOne FileReaction.ID r s.reactions with
    | .error e => (s, .failure 500 e)
    | .ok col => ({ s with reactions := col }, .success 201 (some r) none)

/-! ## Sample data for accounting, trash and input validation -/

/-- Four files: `F` and `H` live in workspace `W`, `G` of `W` is in the trash,
`K` belongs to workspace `V`; `F`, `G` and `K` share a checksum. -/
def quotaStore : Store :=
  { files :=
      [{ ID := 50, FileID := "F", Size := 10, Checksum := "abc", WorkspaceID := "W",
         Status := "active", MetadataSize := some 10 },
       { ID := 51, FileID := "G", Size := 20, Checksum := "abc", WorkspaceID := "W",
         DeletedAt := some 5, Status := "deleted", MetadataSize := some 20 },
       { ID := 52, FileID := "H", Size := 30, Checksum := "xyz", WorkspaceID := "W",
         Status := "active", MetadataSize := some 30 },
       { ID := 53, FileID := "K", Size := 40, Checksum := "abc", WorkspaceID := "V",
         Status := "active", MetadataSize := some 40 }] }

/-- A request on file `F` and workspace `W`. -/
def quotaContext : Context :=
  mkContext [("id", "F"), ("workspaceId", "W")] [("user_id", "alice")]

/-- A request on a file id that no File record has. -/
def unknownFileContext : Context :=
  mkContext [("id", "Z"), ("workspaceId", "W")] [("user_id", "alice")]

/-- A request to delete the version with id 3. -/
def deleteLatestContext : Context :=
  mkContext [("id", "F"), ("versionId", ObjectID.Hex 3)] [("user_id", "alice")]

/-- A request to delete the version with id 1. -/
def deleteFirstContext : Context :=
  mkContext [("id", "F"), ("versionId", ObjectID.Hex 1)] [("user_id", "alice")]

/-- The sample file `F` soft-deleted by `bulkDeleteFiles` and then restored
by `restoreFromTrash`. -/
def deletedThenRestoredStore : Store :=
  (restoreFromTrash (bulkDeleteFiles quotaStore (some [ObjectID.Hex 50]) 700).1
    quotaContext 800).1

/-- A reaction request on file `F` by `dave`. -/
def reactionContext : Context :=
  mkContextWithHeaders [("id", "F")] [("user_id", "dave")] [("X-User-ID", "dave")]

/-- A store with one pending access request on `F` next to a reviewed one of
another file, and one stored grant. -/
def pendingStore : Store :=
  { files := [demoFile],
    permissions :=
      [{ ID := 32, FileID := "F", UserID := "carol", Permission := "write",
         GrantedBy := "alice", CreatedAt := 20 }],
    accessRequests :=
      [{ ID := 21, FileID := "F", RequesterID := "dave", Reason := "need it",
         Status := "pending", CreatedAt := 400 },
       { ID := 22, FileID := "G", RequesterID := "erin", Reason := "audit",
         Status := "denied", ReviewedBy := "bob", CreatedAt := 410,
         ReviewedAt := some 500 }] }

/-! ## Lemmas on the primitives -/

theorem wrapInt_of_range {x : Int} (hlo : minInt ≤ x) (hhi : x ≤ maxInt) :
    wrapInt x = x := by
  simp only [wrapInt, minInt, maxInt] at *
  omega

theorem maxByVersionNum_eq_none {l : List FileVersion}
    (h : maxByVersionNum l = none) : l = [] := by
  cases l with
  | nil => rfl
  | cons v vs =>
    simp only [maxByVersionNum] at h
    split at h
    · cases h
    · split at h <;> cases h

theorem maxByVersionNum_spec :
    ∀ (l : List FileVersion) (w : FileVersion), maxByVersionNum l = some w →
      w ∈ l ∧ ∀ u ∈ l, u.VersionNum ≤ w.VersionNum
  | [], w, h => by simp [maxByVersionNum] at h
  | v :: vs, w, h => by
    simp only [maxByVersionNum] at h
    split at h
    · rename_i hn
      have hnil := maxByVersionNum_eq_none hn
      subst hnil
      cases h
      simp
    · rename_i w1 hw1
      have ih := maxByVersionNum_spec vs w1 hw1
      split at h
      · rename_i hlt
        cases h
        refine ⟨List.mem_cons_of_mem _ ih.1, ?_⟩
        intro u hu
        rcases List.mem_cons.1 hu with rfl | hu
        · omega
        · exact ih.2 u hu
      · rename_i hlt
        cases h
        refine ⟨List.mem_cons_self _ _, ?_⟩
        intro u hu
        rcases List.mem_cons.1 hu with rfl | hu
        · exact le_refl _
        · have := ih.2 u hu
          omega

theorem insertOne_fresh {α : Type} (key : α → ObjectID) (doc : α) (col : List α)
    (h : ∀ d ∈ col, key d ≠ key doc) :
    insertOne key doc col = .ok (col ++ [doc]) := by
  unfold insertOne
  have hany : col.any (fun d => key d == key doc) = false := by
    rw [List.any_eq_false]
    intro d hd
    simpa using h d hd
  simp [hany]

theorem insertOne_cases {α : Type} (key : α → ObjectID) (doc : α) (col : List α) :
    (∃ e, insertOne key doc col = .error e) ∨
      insertOne key doc col = .ok (col ++ [doc]) := by
  unfold insertOne
  split
  · exact Or.inl ⟨_, rfl⟩
  · exact Or.inr rfl

theorem logFileActivity_versions (s : Store) (fileID userID action details : String)
    (logOid : ObjectID) (logNow : Time) :
    (logFileActivity s fileID userID action details logOid logNow).versions
      = s.versions := by
  unfold logFileActivity
  split <;> rfl

theorem logFileActivity_files (s : Store) (fileID userID action details : String)
    (logOid : ObjectID) (logNow : Time) :
    (logFileActivity s fileID userID action details logOid logNow).files
      = s.files := by
  unfold logFileActivity
  split <;> rfl

theorem deleteOne_sublist {α : Type} (p : α → Bool) :
    ∀ l : List α, (deleteOne p l).Sublist l
  | [] => List.Sublist.refl _
  | x :: xs => by
    unfold deleteOne
    split
    · exact List.sublist_cons_self x xs
    · exact (deleteOne_sublist p xs).cons₂ x

/-- What `nextVersionNum` reads: 1 for a file without versions, else one more
than a greatest stored number, as long as that sum is a Go `int`. -/
theorem nextVersionNum_spec (s : Store) (fileID : String)
    (hint : ∀ v ∈ s.versions, v.FileID = fileID →
      minInt ≤ v.VersionNum ∧ v.VersionNum < maxInt) :
    (versionsOf s fileID = [] ∧ nextVersionNum s fileID = 1) ∨
    ∃ w ∈ s.versions, w.FileID = fileID ∧
      (∀ u ∈ s.versions, u.FileID = fileID → u.VersionNum ≤ w.VersionNum) ∧
      nextVersionNum s fileID = w.VersionNum + 1 := by
  unfold nextVersionNum
  split
  · rename_i hn
    exact Or.inl ⟨maxByVersionNum_eq_none hn, rfl⟩
  · rename_i w hw
    obtain ⟨hmem, hmax⟩ := maxByVersionNum_spec _ w hw
    rw [List.mem_filter] at hmem
    have hwf : w.FileID = fileID := by simpa using hmem.2
    have hr := hint w hmem.1 hwf
    refine Or.inr ⟨w, hmem.1, hwf, ?_, ?_⟩
    · intro u hu huf
      exact hmax u (List.mem_filter.2 ⟨hu, by simpa using huf⟩)
    · apply wrapInt_of_range
      · have := hr.1
        omega
      · have := hr.2
        omega

/-! ## Version numbering -/

theorem createVersion_versions_of_fresh (s : Store) (c : Context) (comment : String)
    (oid : ObjectID) (now : Time) (logOid : ObjectID) (logNow : Time)
    (hfresh : ∀ v ∈ s.versions, v.ID ≠ oid) :
    createVersion s c comment oid now logOid logNow =
      (logFileActivity
          { s with versions := s.versions ++
              [{ ID := oid, FileID := c.Param "id",
                 VersionNum := nextVersionNum s (c.Param "id"),
                 UploadedBy := c.Query "user_id", Comment := comment,
                 CreatedAt := now }] }
          (c.Param "id") (c.Query "user_id") "version_created" comment logOid logNow,
        .success 201
          (some { ID := oid, FileID := c.Param "id",
                  VersionNum := nextVersionNum s (c.Param "id"),
                  UploadedBy := c.Query "user_id", Comment := comment,
                  CreatedAt := now }) none) := by
  unfold createVersion insertVersion
  simp only []
  rw [insertOne_fresh FileVersion.ID _ s.versions (fun d hd => hfresh d hd)]

/-- C1: when the driver-generated id is fresh and the stored numbers of the
file are Go ints below the largest int, `createVersion` appends exactly one
version of that file, numbered 1 if the file has no stored version and
otherwise one more than the largest number stored for the file, and answers
201 with it. -/
theorem createVersion_assigns_next_version_num
    (s : Store) (c : Context) (comment : String) (oid : ObjectID) (now : Time)
    (logOid : ObjectID) (logNow : Time)
    (hfresh : ∀ v ∈ s.versions, v.ID ≠ oid)
    (hint : ∀ v ∈ s.versions, v.FileID = c.Param "id" →
      minInt ≤ v.VersionNum ∧ v.VersionNum < maxInt) :
    ∃ v : FileVersion,
      (createVersion s c comment oid now logOid logNow).1.versions
        = s.versions ++ [v] ∧
      (createVersion s c comment oid now logOid logNow).2
        = .success 201 (some v) none ∧
      v.FileID = c.Param "id" ∧
      ((∀ w ∈ s.versions, w.FileID ≠ c.Param "id") → v.VersionNum = 1) ∧
      ((∃ w ∈ s.versions, w.FileID = c.Param "id") →
        ∃ w ∈ s.versions, w.FileID = c.Param "id" ∧
          (∀ u ∈ s.versions, u.FileID = c.Param "id" →
            u.VersionNum ≤ w.VersionNum) ∧
          v.VersionNum = w.VersionNum + 1) := by
  rw [createVersion_versions_of_fresh s c comment oid now logOid logNow hfresh]
  refine ⟨_, ?_, rfl, rfl, ?_, ?_⟩
  · rw [logFileActivity_versions]
  · intro hnone
    rcases nextVersionNum_spec s (c.Param "id") hint with ⟨_, h1⟩ | ⟨w, hw, hwf, _, _⟩
    · exact h1
    · exact absurd hwf (hnone w hw)
  · rintro ⟨w0, hw0, hw0f⟩
    rcases nextVersionNum_spec s (c.Param "id") hint with ⟨hnil, _⟩ | ⟨w, hw, hwf, hmax, hnext⟩
    · have : w0 ∈ versionsOf s (c.Param "id") :=
        List.mem_filter.2 ⟨hw0, by simpa using hw0f⟩
      rw [hnil] at this
      cases this
    · exact ⟨w, hw, hwf, hmax, hnext⟩

/-- Witness for C1: in the sample store the next version of `F` is appended
after versions 1 and 3. -/
theorem createVersion_assigns_next_version_num_witness :
    (∀ v ∈ demoStore.versions, v.ID ≠ 9) ∧
    (∀ v ∈ demoStore.versions, v.FileID = demoContext.Param "id" →
      minInt ≤ v.VersionNum ∧ v.VersionNum < maxInt) ∧
    ∃ v : FileVersion,
      (createVersion demoStore demoContext "edit" 9 100 10 100).1.versions
        = demoStore.versions ++ [v] ∧
      (createVersion demoStore demoContext "edit" 9 100 10 100).2
        = .success 201 (some v) none ∧
      v.FileID = demoContext.Param "id" ∧
      ((∀ w ∈ demoStore.versions, w.FileID ≠ demoContext.Param "id") →
        v.VersionNum = 1) ∧
      ((∃ w ∈ demoStore.versions, w.FileID = demoContext.Param "id") →
        ∃ w ∈ demoStore.versions, w.FileID = demoContext.Param "id" ∧
          (∀ u ∈ demoStore.versions, u.FileID = demoContext.Param "id" →
            u.VersionNum ≤ w.VersionNum) ∧
          v.VersionNum = w.VersionNum + 1) :=
  ⟨by decide, by decide,
    createVersion_assigns_next_version_num demoStore demoContext "edit" 9 100 10 100
      (by decide) (by decide)⟩

/-! ## The numbering invariant of sequential runs -/

theorem VersionsOrdered_mono {n m : Int} {vs : List FileVersion} (hnm : n ≤ m)
    (h : VersionsOrdered n vs) : VersionsOrdered m vs :=
  ⟨fun v hv => ⟨(h.1 v hv).1, le_trans (h.1 v hv).2 hnm⟩, h.2⟩

theorem VersionsOrdered_sublist {n : Int} {vs ws : List FileVersion}
    (hsub : ws.Sublist vs) (h : VersionsOrdered n vs) : VersionsOrdered n ws :=
  ⟨fun v hv => h.1 v (hsub.subset hv),
    fun fileID => (h.2 fileID).sublist (hsub.filter _)⟩

theorem VersionsOrdered_append {n : Int} {vs : List FileVersion} {v : FileVersion}
    (h : VersionsOrdered n vs) (h1 : 1 ≤ v.VersionNum) (h2 : v.VersionNum ≤ n + 1)
    (hgt : ∀ u ∈ vs, u.FileID = v.FileID → u.VersionNum < v.VersionNum) :
    VersionsOrdered (n + 1) (vs ++ [v]) := by
  constructor
  · intro u hu
    rcases List.mem_append.1 hu with hu | hu
    · have := h.1 u hu
      exact ⟨this.1, by omega⟩
    · rw [List.mem_singleton] at hu
      subst hu
      exact ⟨h1, h2⟩
  · intro fileID
    rw [List.filter_append, List.pairwise_append]
    refine ⟨h.2 fileID, ?_, ?_⟩
    · by_cases hv : (v.FileID == fileID) = true
      · simp [List.filter, hv]
      · simp [List.filter, hv]
    · intro a ha b hb
      rw [List.mem_filter] at ha hb
      rw [List.mem_singleton] at hb
      obtain ⟨hb1, hb2⟩ := hb
      subst hb1
      have haf : a.FileID = fileID := by simpa using ha.2
      have hbf : b.FileID = fileID := by simpa using hb2
      exact hgt a ha.1 (haf.trans hbf.symm)

theorem createVersion_preserves_order (s : Store) (c : Context) (comment : String)
    (oid : ObjectID) (now : Time) (logOid : ObjectID) (logNow : Time) (n : Int)
    (hn0 : 0 ≤ n) (hn : n < maxInt) (h : VersionsOrdered n s.versions) :
    VersionsOrdered (n + 1)
      (createVersion s c comment oid now logOid logNow).1.versions := by
  unfold createVersion insertVersion
  simp only []
  rcases insertOne_cases FileVersion.ID
      { ID := oid, FileID := c.Param "id",
        VersionNum := nextVersionNum s (c.Param "id"),
        UploadedBy := c.Query "user_id", Comment := comment, CreatedAt := now }
      s.versions with ⟨e, he⟩ | hok
  · rw [he]
    exact VersionsOrdered_mono (by omega) h
  · rw [hok]
    simp only [logFileActivity_versions]
    have hint : ∀ v ∈ s.versions, v.FileID = c.Param "id" →
        minInt ≤ v.VersionNum ∧ v.VersionNum < maxInt := by
      intro v hv _
      have := h.1 v hv
      simp only [minInt, maxInt] at *
      omega
    rcases nextVersionNum_spec s (c.Param "id") hint with
      ⟨hnil, h1⟩ | ⟨w, hw, hwf, hmax, hnext⟩
    · apply VersionsOrdered_append h
      · simp only [h1]; omega
      · simp only [h1]; omega
      · intro u hu huf
        have : u ∈ versionsOf s (c.Param "id") :=
          List.mem_filter.2 ⟨hu, by simpa using huf⟩
        rw [hnil] at this
        cases this
    · have hwr := h.1 w hw
      apply VersionsOrdered_append h
      · simp only [hnext]; omega
      · simp only [hnext]; omega
      · intro u hu huf
        have := hmax u hu huf
        simp only [hnext]
        omega

theorem deleteVersion_preserves_order (s : Store) (c : Context) (n : Int)
    (h : VersionsOrdered n s.versions) :
    VersionsOrdered n (deleteVersion s c).1.versions := by
  unfold deleteVersion
  split
  · exact h
  · exact VersionsOrdered_sublist (deleteOne_sublist _ _) h

theorem runVersionOps_preserves_order :
    ∀ (ops : List VersionOp) (s : Store) (n : Int), 0 ≤ n →
      n + ops.length ≤ maxInt → VersionsOrdered n s.versions →
      VersionsOrdered (n + ops.length) (runVersionOps s ops).versions
  | [], s, n, _, _, h => by simpa [runVersionOps] using h
  | op :: ops, s, n, hn0, hlen, h => by
    have hlen1 : n + 1 + (ops.length : Int) ≤ maxInt := by
      simp only [List.length_cons, Nat.cast_add, Nat.cast_one] at hlen
      omega
    have hstep : VersionsOrdered (n + 1) (applyVersionOp s op).versions := by
      cases op with
      | create c comment oid now logOid logNow =>
        exact createVersion_preserves_order s c comment oid now logOid logNow n hn0
          (by omega) h
      | delete c =>
        exact VersionsOrdered_mono (by omega) (deleteVersion_preserves_order s c n h)
    have ih := runVersionOps_preserves_order ops (applyVersionOp s op) (n + 1)
      (by omega) hlen1 hstep
    have heq : n + ((op :: ops).length : Int) = n + 1 + (ops.length : Int) := by
      simp only [List.length_cons, Nat.cast_add, Nat.cast_one]
      omega
    rw [heq]
    simpa [runVersionOps] using ih

/-- C2: after any series of `createVersion` and `deleteVersion` calls, run one
after the other from a store without versions (fewer calls than the largest
Go int), the stored versions of each file have pairwise distinct numbers, each
at least 1, and along the insertion order of the collection every later
version of the file has a strictly larger number than every earlier one. -/
theorem sequential_version_nums_distinct_increasing
    (s0 : Store) (ops : List VersionOp) (fileID : String)
    (hempty : s0.versions = [])
    (hlen : (ops.length : Int) ≤ maxInt) :
    ((versionsOf (runVersionOps s0 ops) fileID).map (fun v => v.VersionNum)).Nodup ∧
    (∀ v ∈ versionsOf (runVersionOps s0 ops) fileID, 1 ≤ v.VersionNum) ∧
    (versionsOf (runVersionOps s0 ops) fileID).Pairwise
      (fun earlier later => earlier.VersionNum < later.VersionNum) := by
  have h0 : VersionsOrdered 0 s0.versions := by
    rw [hempty]
    exact ⟨fun v hv => (by cases hv), fun _ => List.Pairwise.nil⟩
  have h := runVersionOps_preserves_order ops s0 0 (le_refl _) (by omega) h0
  have hp := h.2 fileID
  refine ⟨?_, ?_, hp⟩
  · unfold versionsOf
    rw [List.Nodup, List.pairwise_map]
    exact hp.imp (fun hlt => ne_of_lt hlt)
  · intro v hv
    exact (h.1 v (List.mem_filter.1 hv).1).1

/-- Witness for C2: the sample run creates, deletes and creates again; the
numbers of `F` that remain are distinct, positive and increasing. -/
theorem sequential_version_nums_distinct_increasing_witness :
    (({} : Store).versions = []) ∧ ((demoOps.length : Int) ≤ maxInt) ∧
    ((versionsOf (runVersionOps {} demoOps) "F").map (fun v => v.VersionNum)).Nodup ∧
    (∀ v ∈ versionsOf (runVersionOps {} demoOps) "F", 1 ≤ v.VersionNum) ∧
    (versionsOf (runVersionOps {} demoOps) "F").Pairwise
      (fun earlier later => earlier.VersionNum < later.VersionNum) :=
  ⟨rfl, by decide,
    sequential_version_nums_distinct_increasing {} demoOps "F" rfl (by decide)⟩

/-! ## Interleaved version creation -/

/-- C3: two `createVersion` requests for a file without versions, scheduled so
that both read the maximum before either inserts, store two versions that
both carry number 1: the numbers are not distinct and their maximum is 1, not
2, while the same two requests run one after the other store 1 and 2. -/
theorem concurrent_createVersion_duplicate_numbers :
    isInterleaving 2 raceSchedule = true ∧
    (runRace raceCalls {} raceSchedule).versions.map (fun v => v.VersionNum) = [1, 1] ∧
    (runRace raceCalls {} [.readMax 0, .insert 0, .readMax 1, .insert 1]).versions.map
      (fun v => v.VersionNum) = [1, 2] := by
  decide

/-! ## Restore -/

theorem findOne_updateOne {α : Type} (p : α → Bool) (f : α → α)
    (hp : ∀ x, p x = true → p (f x) = true) :
    ∀ l : List α, findOne p (updateOne p f l) = (findOne p l).map f
  | [] => rfl
  | x :: xs => by
    have ih := findOne_updateOne p f hp xs
    unfold findOne at ih ⊢
    unfold updateOne
    by_cases h : p x = true
    · simp [h, hp x h]
    · simp [h, ih]

/-- C4: when the request names the id under which the collection holds version
`v` and a File record with the file id of `v` exists, `restoreVersion` answers 200
and afterwards the File record found under that file id is the former record
with `storage_key`, `size` and `checksum` replaced by exactly the values
stored in `v` (and `updated_at` by the current time), whatever other versions
the store holds. -/
theorem restoreVersion_copies_version_fields
    (s : Store) (c : Context) (now : Time) (logOid : ObjectID) (logNow : Time)
    (v : FileVersion) (f : File)
    (hid : ObjectIDFromHex (c.Param "versionId") = some v.ID)
    (hv : findOne (fun w => w.ID == v.ID) s.versions = some v)
    (hf : findOne (fun g => g.FileID == v.FileID) s.files = some f) :
    (restoreVersion s c now logOid logNow).2
      = .success 200 none (some "version restored") ∧
    ∃ g : File,
      findOne (fun g => g.FileID == v.FileID)
        (restoreVersion s c now logOid logNow).1.files = some g ∧
      g = { f with StorageKey := v.StorageKey, Size := v.Size,
                   Checksum := v.Checksum, UpdatedAt := now } ∧
      g.StorageKey = v.StorageKey ∧ g.Size = v.Size ∧ g.Checksum = v.Checksum := by
  unfold restoreVersion
  rw [hid]
  simp only []
  rw [hv]
  simp only [logFileActivity_files]
  have hupd := findOne_updateOne (fun g : File => g.FileID == v.FileID)
    (fun f : File => { f with StorageKey := v.StorageKey, Size := v.Size,
                              Checksum := v.Checksum, UpdatedAt := now })
    (fun x hx => hx) s.files
  rw [hf] at hupd
  exact ⟨trivial, _, hupd, rfl, rfl, rfl, rfl⟩

/-- Witness for C4: restoring version 1 of `F` in the sample store, where the
later version 3 exists. -/
theorem restoreVersion_copies_version_fields_witness :
    (restoreVersion demoStore restoreContext 300 5 300).2
      = .success 200 none (some "version restored") ∧
    ∃ g : File,
      findOne (fun g => g.FileID == "F")
        (restoreVersion demoStore restoreContext 300 5 300).1.files = some g ∧
      g = { demoFile with StorageKey := "k1", Size := 11, Checksum := "c1",
                          UpdatedAt := 300 } ∧
      g.StorageKey = "k1" ∧ g.Size = 11 ∧ g.Checksum = "c1" :=
  restoreVersion_copies_version_fields demoStore restoreContext 300 5 300
    { ID := 1, FileID := "F", VersionNum := 1, StorageKey := "k1", Size := 11,
      Checksum := "c1" }
    demoFile (by decide) (by decide) (by decide)

/-- C5: when the request names a well-formed id under which no version is
stored, `restoreVersion` answers 404 `version not found` and returns the store
as it was: File records, versions and activity log are unchanged. -/
theorem restoreVersion_unknown_id_not_found
    (s : Store) (c : Context) (now : Time) (logOid : ObjectID) (logNow : Time)
    (versionID : ObjectID)
    (hid : ObjectIDFromHex (c.Param "versionId") = some versionID)
    (hnone : ∀ v ∈ s.versions, v.ID ≠ versionID) :
    restoreVersion s c now logOid logNow = (s, .failure 404 "version not found") := by
  have hfind : findOne (fun v => v.ID == versionID) s.versions = none := by
    unfold findOne
    rw [List.find?_eq_none]
    intro v hv
    simpa using hnone v hv
  unfold restoreVersion
  rw [hid]
  simp only []
  rw [hfind]

/-- Witness for C5: id 77 names no version of the two-version store. -/
theorem restoreVersion_unknown_id_not_found_witness :
    ObjectIDFromHex (restoreMissingContext.Param "versionId") = some 77 ∧
    (∀ v ∈ twoVersionsStore.versions, v.ID ≠ 77) ∧
    restoreVersion twoVersionsStore restoreMissingContext 300 5 300
      = (twoVersionsStore, .failure 404 "version not found") :=
  ⟨by decide, by decide,
    restoreVersion_unknown_id_not_found twoVersionsStore restoreMissingContext 300 5 300
      77 (by decide) (by decide)⟩

/-- C6: in the scenario (file `F` with checksum `abc`, version 1 `initial`,
version 2 `edit`, restore of version 1) both versions were stored with the
empty checksum, storage key and size 0, so after the restore the checksum of
`F` is the empty string: it equals the checksum of version 1 and also that of
version 2. -/
theorem restore_scenario_checksum_equals_both_versions :
    twoVersionsStore.versions.map (fun v => (v.VersionNum, v.Comment, v.Checksum))
      = [(1, "initial", ""), (2, "edit", "")] ∧
    (restoreVersion twoVersionsStore restoreContext 300 5 300).2
      = .success 200 none (some "version restored") ∧
    (restoreVersion twoVersionsStore restoreContext 300 5 300).1.files.map
      (fun f => (f.FileID, f.StorageKey, f.Size, f.Checksum)) = [("F", "", 0, "")] := by
  decide

/-! ## Share links -/

/-- C7: for a stored link that is active, has zero views and whose
`expires_at` (50) lies before any later current time, `accessSharedFile`
answers 200 with the file and counts a view; the handler never reads
`expires_at` nor the clock. -/
theorem accessSharedFile_serves_expired_link :
    expiredLinkStore.links.map (fun l => (l.ExpiresAt, l.IsActive, l.Views))
      = [(some 50, true, 0)] ∧
    (accessSharedFile expiredLinkStore accessContext).2
      = .success 200 (some demoFile) none ∧
    (accessSharedFile expiredLinkStore accessContext).1.links.map (fun l => l.Views)
      = [1] := by
  decide

/-- C8: for a link created by `createShareLink` with `max_views = 1` and no
password, two `accessSharedFile` calls with its token both answer 200 with the
file, and the stored `views` is then 2. -/
theorem accessSharedFile_exceeds_max_views :
    oneViewLinkStore.links.map (fun l => (l.MaxViews, l.Views, l.IsActive))
      = [(1, 0, true)] ∧
    (accessSharedFile oneViewLinkStore accessContext).2
      = .success 200 (some demoFile) none ∧
    (accessSharedFile (accessSharedFile oneViewLinkStore accessContext).1
        accessContext).2
      = .success 200 (some demoFile) none ∧
    (accessSharedFile (accessSharedFile oneViewLinkStore accessContext).1
        accessContext).1.links.map (fun l => (l.MaxViews, l.Views))
      = [(1, 2)] := by
  decide

/-- C9: for a link created by `createShareLink` with password `secret`, an
`accessSharedFile` request that carries the password `wrong` answers 200 with
the file and raises the stored `views` from 0 to 1; the handler reads no
password from the request. -/
theorem accessSharedFile_ignores_password :
    passwordLinkStore.links.map (fun l => (l.Password, l.Views, l.IsActive))
      = [("secret", 0, true)] ∧
    accessContext.Query "password" = "wrong" ∧
    (accessSharedFile passwordLinkStore accessContext).2
      = .success 200 (some demoFile) none ∧
    (accessSharedFile passwordLinkStore accessContext).1.links.map (fun l => l.Views)
      = [1] := by
  decide

/-- C10: when no stored link has the requested token together with
`is_active = true`, `accessSharedFile` answers 404 and returns the store as it
was, so the views of every link are unchanged. -/
theorem accessSharedFile_no_active_link_not_found
    (s : Store) (c : Context)
    (hnone : ∀ l ∈ s.links, l.Token = c.Param "token" → l.IsActive = false) :
    accessSharedFile s c = (s, .failure 404 "link not found or expired") := by
  have hfind : findOne (fun l => l.Token == c.Param "token" && l.IsActive == true)
      s.links = none := by
    unfold findOne
    rw [List.find?_eq_none]
    intro l hl
    by_cases ht : l.Token = c.Param "token"
    · simp [ht, hnone l hl ht]
    · simp [ht]
  unfold accessSharedFile
  simp only []
  rw [hfind]

/-- Witness for C10: the only link with the requested token is inactive. -/
theorem accessSharedFile_no_active_link_not_found_witness :
    (∀ l ∈ inactiveLinkStore.links,
      l.Token = accessContext.Param "token" → l.IsActive = false) ∧
    accessSharedFile inactiveLinkStore accessContext
      = (inactiveLinkStore, .failure 404 "link not found or expired") :=
  ⟨by decide, accessSharedFile_no_active_link_not_found inactiveLinkStore accessContext
    (by decide)⟩

/-! ## Lemmas on collections with unique ids -/

theorem deleteOne_eq_self {α : Type} (p : α → Bool) :
    ∀ l : List α, (∀ x ∈ l, p x = false) → deleteOne p l = l
  | [], _ => rfl
  | x :: xs, h => by
    have hx := h x (List.mem_cons_self _ _)
    have ih := deleteOne_eq_self p xs (fun y hy => h y (List.mem_cons_of_mem _ hy))
    unfold deleteOne
    simp [hx, ih]

theorem deleteOne_eq_filter_of_nodup {α : Type} (key : α → ObjectID) (k : ObjectID) :
    ∀ l : List α, (l.map key).Nodup →
      deleteOne (fun x => key x == k) l = l.filter (fun x => key x != k)
  | [], _ => rfl
  | x :: xs, h => by
    rw [List.map_cons, List.nodup_cons] at h
    unfold deleteOne
    by_cases hx : key x = k
    · have hxs : ∀ y ∈ xs, (key y != k) = true := by
        intro y hy
        have hne : key y ≠ k := by
          intro hyk
          apply h.1
          rw [hx, ← hyk]
          exact List.mem_map_of_mem key hy
        simpa using hne
      simp [hx, List.filter_eq_self.2 hxs]
    · have ih := deleteOne_eq_filter_of_nodup key k xs h.2
      simp [hx, ih]

theorem updateOne_eq_map_of_nodup {α : Type} [DecidableEq α] (key : α → ObjectID)
    (f : α → α) (a : α) :
    ∀ l : List α, (l.map key).Nodup → a ∈ l →
      updateOne (fun x => key x == key a) f l
        = l.map (fun x => if x = a then f x else x)
  | [], _, h => by cases h
  | x :: xs, hnd, hmem => by
    rw [List.map_cons, List.nodup_cons] at hnd
    unfold updateOne
    by_cases hx : key x = key a
    · have hnot : ∀ y ∈ xs, y ≠ a := by
        intro y hy hya
        subst hya
        exact hnd.1 (hx ▸ List.mem_map_of_mem key hy)
      have hxa : x = a := by
        rcases List.mem_cons.1 hmem with h | h
        · exact h.symm
        · exact absurd rfl (hnot a h)
      have hid : xs.map (fun y => if y = a then f y else y) = xs := by
        conv_rhs => rw [← List.map_id xs]
        apply List.map_congr_left
        intro y hy
        simp [hnot y hy]
      simp [hx, hxa, hid]
    · have hne : x ≠ a := fun h => hx (h ▸ rfl)
      have hmem1 : a ∈ xs := (List.mem_cons.1 hmem).resolve_left (fun h => hne h.symm)
      simp [hx, hne, updateOne_eq_map_of_nodup key f a xs hnd.2 hmem1]

theorem incViews_of_lt (l : FileLink) (h : l.Views < maxInt) :
    incViews l = { l with Views := l.Views + 1 } := by
  unfold incViews
  have h1 : l.Views + 1 ≤ maxInt := by omega
  simp [h1]

theorem accessSharedFile_of_found (s : Store) (c : Context) (link : FileLink) (file : File)
    (hl : findOne (fun l => l.Token == c.Param "token" && l.IsActive == true) s.links
      = some link)
    (hf : findOne (fun f => f.FileID == link.FileID) s.files = some file) :
    accessSharedFile s c
      = ({ s with links := updateOne (fun l => l.ID == link.ID) incViews s.links },
          .success 200 (some file) none) := by
  unfold accessSharedFile
  simp only []
  rw [hl]
  simp only []
  rw [hf]

theorem accessSharedFile_of_missing_file (s : Store) (c : Context) (link : FileLink)
    (hl : findOne (fun l => l.Token == c.Param "token" && l.IsActive == true) s.links
      = some link)
    (hf : findOne (fun f => f.FileID == link.FileID) s.files = none) :
    accessSharedFile s c
      = ({ s with links := updateOne (fun l => l.ID == link.ID) incViews s.links },
          .failure 404 "file not found") := by
  unfold accessSharedFile
  simp only []
  rw [hl]
  simp only []
  rw [hf]

theorem accessSharedFile_of_no_link (s : Store) (c : Context)
    (hl : findOne (fun l => l.Token == c.Param "token" && l.IsActive == true) s.links
      = none) :
    accessSharedFile s c = (s, .failure 404 "link not found or expired") := by
  unfold accessSharedFile
  simp only []
  rw [hl]

/-! ## Effect of a share-link access -/

/-- C11: in a store whose link ids are unique and whose counters are below the
largest 64-bit integer, whenever `accessSharedFile` answers with success there
is a matched link (the first active link with the requested token) and the
response is 200 with the File record found under the `file_id` of that link;
afterwards the links collection is the old one with `views` of the matched
link raised by exactly 1 and every other link, and every other field of the
matched link, as before; files and all other collections are untouched. -/
theorem accessSharedFile_success_effect
    (s : Store) (c : Context) (st : Nat) (data : Option File) (msg : Option String)
    (hids : (s.links.map FileLink.ID).Nodup)
    (hviews : ∀ l ∈ s.links, l.Views < maxInt)
    (hsucc : (accessSharedFile s c).2 = .success st data msg) :
    ∃ (link : FileLink) (file : File),
      findOne (fun l => l.Token == c.Param "token" && l.IsActive == true) s.links
        = some link ∧
      findOne (fun f => f.FileID == link.FileID) s.files = some file ∧
      file.FileID = link.FileID ∧
      (accessSharedFile s c).2 = .success 200 (some file) none ∧
      (accessSharedFile s c).1 =
        { s with links := s.links.map fun l =>
            if l = link then { l with Views := l.Views + 1 } else l } := by
  cases hl : findOne (fun l => l.Token == c.Param "token" && l.IsActive == true) s.links with
  | none =>
    rw [accessSharedFile_of_no_link s c hl] at hsucc
    cases hsucc
  | some link =>
    cases hf : findOne (fun f => f.FileID == link.FileID) s.files with
    | none =>
      rw [accessSharedFile_of_missing_file s c link hl hf] at hsucc
      cases hsucc
    | some file =>
      have hmem : link ∈ s.links := List.mem_of_find?_eq_some hl
      have hfid : file.FileID = link.FileID := by
        have := List.find?_some hf
        simpa using this
      refine ⟨link, file, rfl, hf, hfid, ?_, ?_⟩
      · rw [accessSharedFile_of_found s c link file hl hf]
      · rw [accessSharedFile_of_found s c link file hl hf]
        simp only []
        rw [updateOne_eq_map_of_nodup FileLink.ID incViews link s.links hids hmem]
        congr 1
        apply List.map_congr_left
        intro l hl1
        by_cases h : l = link
        · simp only [h, if_true]
          exact incViews_of_lt link (hviews link hmem)
        · simp only [h, if_false]

/-- Witness for C11: the first of two links is accessed; its `views` goes from
3 to 4 and the second link stays as it was. -/
theorem accessSharedFile_success_effect_witness :
    (accessSharedFile twoLinksStore accessContext).2 = .success 200 (some demoFile) none ∧
    ∃ (link : FileLink) (file : File),
      findOne (fun l => l.Token == accessContext.Param "token" && l.IsActive == true)
        twoLinksStore.links = some link ∧
      findOne (fun f => f.FileID == link.FileID) twoLinksStore.files = some file ∧
      file.FileID = link.FileID ∧
      (accessSharedFile twoLinksStore accessContext).2 = .success 200 (some file) none ∧
      (accessSharedFile twoLinksStore accessContext).1 =
        { twoLinksStore with links := twoLinksStore.links.map fun l =>
            if l = link then { l with Views := l.Views + 1 } else l } :=
  ⟨by decide,
    accessSharedFile_success_effect twoLinksStore accessContext 200 (some demoFile) none
      (by decide) (by decide) (by decide)⟩

/-- C12: when the matched link points to a file without File record,
`accessSharedFile` answers 404 `file not found` after it has raised the
stored `views` of the link from 0 to 1. -/
theorem accessSharedFile_counts_view_of_missing_file :
    danglingLinkStore.links.map (fun l => (l.FileID, l.IsActive, l.Views))
      = [("G", true, 0)] ∧
    danglingLinkStore.files.map (fun f => f.FileID) = ["F"] ∧
    (accessSharedFile danglingLinkStore accessContext).2
      = .failure 404 "file not found" ∧
    (accessSharedFile danglingLinkStore accessContext).1.links.map (fun l => l.Views)
      = [1] := by
  decide

/-! ## Removal and creation of share links -/

theorem filter_ne_nodup_mem {α : Type} (key : α → ObjectID) (k : ObjectID) (l : List α) :
    ∀ x ∈ l.filter (fun x => key x != k), (key x == k) = false := by
  intro x hx
  have h := (List.mem_filter.1 hx).2
  simpa using h

theorem deleteShareLink_of_parsed (s : Store) (c : Context) (k : ObjectID)
    (hids : (s.links.map FileLink.ID).Nodup)
    (hparse : ObjectIDFromHex (c.Param "linkId") = some k) :
    deleteShareLink s c
      = ({ s with links := s.links.filter (fun l => l.ID != k) },
          .success 200 none none) := by
  unfold deleteShareLink
  simp only [hparse, Option.getD_some]
  rw [deleteOne_eq_filter_of_nodup FileLink.ID k s.links hids]

/-- C13, refuted as stated: removing the only link of the sample store with
`deleteShareLink` leaves no link at all, so no link with that id and
`is_active = false` is stored and `listShareLinks` returns the empty list. -/
theorem deleteShareLink_link_not_kept :
    oneViewLinkStore.links.map (fun l => (l.ID, l.FileID, l.IsActive)) = [(9, "F", true)] ∧
    (deleteShareLink oneViewLinkStore removeLinkContext).1.links = [] ∧
    listShareLinks (deleteShareLink oneViewLinkStore removeLinkContext).1 demoContext
      = .success 200 (some []) none ∧
    ¬ ∃ l ∈ (deleteShareLink oneViewLinkStore removeLinkContext).1.links,
        l.ID = 9 ∧ l.IsActive = false := by
  decide

/-- C13 as amended: for every stored link of a store with unique link ids,
`deleteShareLink` with its id answers 200 and removes exactly that link: the
links collection afterwards is the old one without it, every other link is
kept as it was, no listing returns the removed link, and a second call with
the same id answers 200 and leaves the store as the first call left it. -/
theorem deleteShareLink_removes_link
    (s : Store) (c : Context) (link : FileLink)
    (hids : (s.links.map FileLink.ID).Nodup)
    (hmem : link ∈ s.links)
    (hparse : ObjectIDFromHex (c.Param "linkId") = some link.ID) :
    (deleteShareLink s c).2 = .success 200 none none ∧
    (deleteShareLink s c).1
      = { s with links := s.links.filter (fun l => l.ID != link.ID) } ∧
    link ∉ (deleteShareLink s c).1.links ∧
    (∀ l ∈ s.links, l ≠ link → l ∈ (deleteShareLink s c).1.links) ∧
    (∀ (c2 : Context) (ls : List FileLink),
      listShareLinks (deleteShareLink s c).1 c2 = .success 200 (some ls) none →
        link ∉ ls) ∧
    deleteShareLink (deleteShareLink s c).1 c
      = ((deleteShareLink s c).1, .success 200 none none) := by
  rw [deleteShareLink_of_parsed s c link.ID hids hparse]
  have hnot : link ∉ s.links.filter (fun l => l.ID != link.ID) := by
    intro h
    have := (List.mem_filter.1 h).2
    simp at this
  refine ⟨rfl, rfl, hnot, ?_, ?_, ?_⟩
  · intro l hl hne
    apply List.mem_filter.2
    refine ⟨hl, ?_⟩
    have hid : l.ID ≠ link.ID := by
      intro hid
      exact hne (List.inj_on_of_nodup_map hids hl hmem hid)
    simpa using hid
  · intro c2 ls hls h
    unfold listShareLinks at hls
    simp only [Response.success.injEq, Option.some.injEq, true_and, and_true] at hls
    rw [← hls] at h
    exact hnot (List.mem_filter.1 h).1
  · unfold deleteShareLink
    simp only [hparse, Option.getD_some]
    rw [deleteOne_eq_self _ _ (filter_ne_nodup_mem FileLink.ID link.ID s.links)]

/-- Witness for C13 as amended: the first of the two sample links is removed. -/
theorem deleteShareLink_removes_link_witness :
    (deleteShareLink twoLinksStore removeLinkContext).2 = .success 200 none none ∧
    (deleteShareLink twoLinksStore removeLinkContext).1
      = { twoLinksStore with links := twoLinksStore.links.filter (fun l => l.ID != 9) } ∧
    ({ ID := 9, FileID := "F", Token := ObjectID.Hex 4096, CreatedBy := "alice",
       MaxViews := 0, Views := 3, IsActive := true, CreatedAt := 10 } : FileLink)
      ∉ (deleteShareLink twoLinksStore removeLinkContext).1.links ∧
    (∀ l ∈ twoLinksStore.links,
      l ≠ { ID := 9, FileID := "F", Token := ObjectID.Hex 4096, CreatedBy := "alice",
            MaxViews := 0, Views := 3, IsActive := true, CreatedAt := 10 } →
      l ∈ (deleteShareLink twoLinksStore removeLinkContext).1.links) ∧
    (∀ (c2 : Context) (ls : List FileLink),
      listShareLinks (deleteShareLink twoLinksStore removeLinkContext).1 c2
        = .success 200 (some ls) none →
      ({ ID := 9, FileID := "F", Token := ObjectID.Hex 4096, CreatedBy := "alice",
         MaxViews := 0, Views := 3, IsActive := true, CreatedAt := 10 } : FileLink) ∉ ls) ∧
    deleteShareLink (deleteShareLink twoLinksStore removeLinkContext).1 removeLinkContext
      = ((deleteShareLink twoLinksStore removeLinkContext).1, .success 200 none none) :=
  deleteShareLink_removes_link twoLinksStore removeLinkContext
    { ID := 9, FileID := "F", Token := ObjectID.Hex 4096, CreatedBy := "alice",
      MaxViews := 0, Views := 3, IsActive := true, CreatedAt := 10 }
    (by decide) (by decide) (by decide)

/-- C14: when the driver-generated id is fresh, `createShareLink` answers 201
and appends exactly one link to the links collection, behind the stored links,
which stay as they were; the new link carries the requested file id, the
caller as creator, the requested `max_views` and password, `is_active = true`,
`views = 0` and no expiry; no other collection changes. -/
theorem createShareLink_stores_one_new_link
    (s : Store) (c : Context) (maxViews : Int) (password : String)
    (tokenOid : ObjectID) (now : Time) (oid : ObjectID)
    (hfresh : ∀ l ∈ s.links, l.ID ≠ oid) :
    ∃ link : FileLink,
      createShareLink s c maxViews password tokenOid now oid
        = ({ s with links := s.links ++ [link] }, .success 201 (some link) none) ∧
      link.FileID = c.Param "id" ∧ link.CreatedBy = c.Query "user_id" ∧
      link.MaxViews = maxViews ∧ link.Password = password ∧
      link.IsActive = true ∧ link.Views = 0 ∧ link.ExpiresAt = none ∧
      link.Token = ObjectID.Hex tokenOid ∧ link.ID = oid := by
  refine ⟨{ ID := oid, FileID := c.Param "id", Token := ObjectID.Hex tokenOid,
            CreatedBy := c.Query "user_id", MaxViews := maxViews, Password := password,
            IsActive := true, CreatedAt := now }, ?_, rfl, rfl, rfl, rfl, rfl, rfl, rfl,
          rfl, rfl⟩
  unfold createShareLink
  simp only []
  rw [insertOne_fresh FileLink.ID _ s.links (fun d hd => hfresh d hd)]

/-- Witness for C14: a third link is added to the two sample links. -/
theorem createShareLink_stores_one_new_link_witness :
    (∀ l ∈ twoLinksStore.links, l.ID ≠ 11) ∧
    ∃ link : FileLink,
      createShareLink twoLinksStore demoContext 2 "pw" 4098 30 11
        = ({ twoLinksStore with links := twoLinksStore.links ++ [link] },
            .success 201 (some link) none) ∧
      link.FileID = demoContext.Param "id" ∧ link.CreatedBy = demoContext.Query "user_id" ∧
      link.MaxViews = 2 ∧ link.Password = "pw" ∧
      link.IsActive = true ∧ link.Views = 0 ∧ link.ExpiresAt = none ∧
      link.Token = ObjectID.Hex 4098 ∧ link.ID = 11 :=
  ⟨by decide, createShareLink_stores_one_new_link twoLinksStore demoContext 2 "pw" 4098 30 11
    (by decide)⟩

/-- The token of the next link, two ObjectIDs later in the same process, is
fixed by an earlier ObjectID and the second of creation, as long as the
three-byte counter does not wrap in between. -/
theorem NewObjectID_next (t1 t2 pu n : Nat) (hwrap : (n + 1) % 2 ^ 24 + 2 < 2 ^ 24) :
    NewObjectID t2 pu (n + 2)
      = t2 % 2 ^ 32 * 2 ^ 64 + NewObjectID t1 pu n % 2 ^ 64 / 2 ^ 24 * 2 ^ 24
          + (NewObjectID t1 pu n % 2 ^ 24 + 2) % 2 ^ 24 := by
  unfold NewObjectID
  have ha : pu % 2 ^ 40 < 2 ^ 40 := Nat.mod_lt _ (by norm_num)
  have hc : (n + 1) % 2 ^ 24 < 2 ^ 24 := Nat.mod_lt _ (by norm_num)
  have h3 : (n + 2 + 1) % 2 ^ 24 = ((n + 1) % 2 ^ 24 + 2) % 2 ^ 24 := by omega
  rw [h3]
  generalize pu % 2 ^ 40 = a at ha ⊢
  generalize (n + 1) % 2 ^ 24 = c1 at hc hwrap ⊢
  generalize t1 % 2 ^ 32 = T1
  generalize t2 % 2 ^ 32 = T2
  have hlow : (T1 * 2 ^ 64 + a * 2 ^ 24 + c1) % 2 ^ 64 = a * 2 ^ 24 + c1 := by omega
  have hcnt : (T1 * 2 ^ 64 + a * 2 ^ 24 + c1) % 2 ^ 24 = c1 := by omega
  rw [hlow, hcnt]
  clear hlow hcnt h3
  have hdiv : (a * 2 ^ 24 + c1) / 2 ^ 24 = a := by omega
  rw [hdiv]

/-- C15: two links created one after the other by one process carry tokens
that differ only in the timestamp bytes and in the counter, advanced by 2;
the second token is computed by `predictToken` from the first token and the
second in which the second link is created. -/
theorem createShareLink_token_predictable :
    consecutiveLinksStore.links.map (fun l => l.Token)
      = ["6553f100a1b2c3d4e5000011", "6553f13ca1b2c3d4e5000013"] ∧
    predictToken "6553f100a1b2c3d4e5000011" 1700000060
      = some "6553f13ca1b2c3d4e5000013" := by
  decide

/-! ## Permissions -/

theorem grantPermission_of_fresh (s : Store) (c : Context) (userID permission : String)
    (oid : ObjectID) (now : Time)
    (huser : userID ≠ "") (hperm : permission ≠ "")
    (hfresh : ∀ p ∈ s.permissions, p.ID ≠ oid) :
    grantPermission s c userID permission oid now
      = ({ s with permissions := s.permissions ++
            [{ ID := oid, FileID := c.Param "id", UserID := userID,
               Permission := permission, GrantedBy := c.Query "user_id",
               CreatedAt := now }] },
          .success 201
            (some { ID := oid, FileID := c.Param "id", UserID := userID,
                    Permission := permission, GrantedBy := c.Query "user_id",
                    CreatedAt := now }) none) := by
  unfold grantPermission
  have hcond : ¬ (userID = "" ∨ permission = "") := by
    rintro (h | h)
    · exact huser h
    · exact hperm h
  rw [if_neg hcond]
  simp only []
  rw [insertOne_fresh FilePermission.ID _ s.permissions (fun d hd => hfresh d hd)]

/-- C16, refuted as stated: the listing for file `F` returns the grant of
`bob` whose `expires_at` (50) lies before any later current time, next to the
grant of `carol`; the handler reads neither `expires_at` nor the clock and
does not select by user. -/
theorem listPermissions_returns_expired_grant :
    grantsStore.permissions.map (fun p => (p.FileID, p.UserID, p.ExpiresAt))
      = [("F", "bob", some 50), ("F", "carol", none)] ∧
    listPermissions grantsStore demoContext
      = .success 200 (some grantsStore.permissions) none := by
  decide

/-- C16 as amended: the permission listing answers 200 with exactly the stored
grants of the requested file, of every user and whatever their `expires_at`;
and a grant made by `grantPermission` (non-empty user and permission, fresh
id) is stored without `expires_at` and is returned by the next listing of that
file. -/
theorem listPermissions_returns_every_grant_of_file
    (s : Store) (c : Context) (userID permission : String) (oid : ObjectID) (now : Time)
    (huser : userID ≠ "") (hperm : permission ≠ "")
    (hfresh : ∀ p ∈ s.permissions, p.ID ≠ oid) :
    (∀ c2 : Context, ∃ listed : List FilePermission,
      listPermissions s c2 = .success 200 (some listed) none ∧
      ∀ p, p ∈ listed ↔ p ∈ s.permissions ∧ p.FileID = c2.Param "id") ∧
    ∃ (granted : FilePermission) (listed : List FilePermission),
      (grantPermission s c userID permission oid now).2
        = .success 201 (some granted) none ∧
      granted.UserID = userID ∧ granted.Permission = permission ∧
      granted.FileID = c.Param "id" ∧ granted.ExpiresAt = none ∧
      listPermissions (grantPermission s c userID permission oid now).1 c
        = .success 200 (some listed) none ∧
      granted ∈ listed := by
  constructor
  · intro c2
    refine ⟨_, rfl, ?_⟩
    intro p
    rw [List.mem_filter]
    simp
  · rw [grantPermission_of_fresh s c userID permission oid now huser hperm hfresh]
    refine ⟨_, _, rfl, rfl, rfl, rfl, rfl, rfl, ?_⟩
    apply List.mem_filter.2
    refine ⟨?_, ?_⟩
    · simp
    · simp

/-- Witness for C16 as amended: `read` is granted to `bob` on `F`, and listed. -/
theorem listPermissions_returns_every_grant_of_file_witness :
    (∀ c2 : Context, ∃ listed : List FilePermission,
      listPermissions grantsStore c2 = .success 200 (some listed) none ∧
      ∀ p, p ∈ listed ↔ p ∈ grantsStore.permissions ∧ p.FileID = c2.Param "id") ∧
    ∃ (granted : FilePermission) (listed : List FilePermission),
      (grantPermission grantsStore demoContext "bob" "read" 33 100).2
        = .success 201 (some granted) none ∧
      granted.UserID = "bob" ∧ granted.Permission = "read" ∧
      granted.FileID = demoContext.Param "id" ∧ granted.ExpiresAt = none ∧
      listPermissions (grantPermission grantsStore demoContext "bob" "read" 33 100).1
          demoContext
        = .success 200 (some listed) none ∧
      granted ∈ listed :=
  listPermissions_returns_every_grant_of_file grantsStore demoContext "bob" "read" 33 100
    (by decide) (by decide) (by decide)

/-- C17: for a request whose `user_id` and `permission` are non-empty, and a
fresh driver-generated id, `grantPermission` answers 201 and appends exactly
one row to the permissions collection, behind the stored rows, which stay as
they were, whether or not an equal grant is already stored; no other
collection changes. -/
theorem grantPermission_adds_one_row
    (s : Store) (c : Context) (userID permission : String) (oid : ObjectID) (now : Time)
    (huser : userID ≠ "") (hperm : permission ≠ "")
    (hfresh : ∀ p ∈ s.permissions, p.ID ≠ oid) :
    ∃ row : FilePermission,
      grantPermission s c userID permission oid now
        = ({ s with permissions := s.permissions ++ [row] },
            .success 201 (some row) none) ∧
      row.ID = oid ∧ row.FileID = c.Param "id" ∧ row.UserID = userID ∧
      row.Permission = permission ∧ row.GrantedBy = c.Query "user_id" ∧
      (grantPermission s c userID permission oid now).1.permissions.length
        = s.permissions.length + 1 := by
  rw [grantPermission_of_fresh s c userID permission oid now huser hperm hfresh]
  refine ⟨_, rfl, rfl, rfl, rfl, rfl, rfl, ?_⟩
  simp

/-- Witness for C17: `read` is granted to `bob` on `F` a second time. -/
theorem grantPermission_adds_one_row_witness :
    (∃ p ∈ grantsStore.permissions,
      p.FileID = "F" ∧ p.UserID = "bob" ∧ p.Permission = "read") ∧
    ∃ row : FilePermission,
      grantPermission grantsStore demoContext "bob" "read" 33 100
        = ({ grantsStore with permissions := grantsStore.permissions ++ [row] },
            .success 201 (some row) none) ∧
      row.ID = 33 ∧ row.FileID = demoContext.Param "id" ∧ row.UserID = "bob" ∧
      row.Permission = "read" ∧ row.GrantedBy = demoContext.Query "user_id" ∧
      (grantPermission grantsStore demoContext "bob" "read" 33 100).1.permissions.length
        = grantsStore.permissions.length + 1 :=
  ⟨by decide,
    grantPermission_adds_one_row grantsStore demoContext "bob" "read" 33 100
      (by decide) (by decide) (by decide)⟩

/-- C18: in a store with unique permission ids, `revokePermission` with a
well-formed id answers 200 and leaves the permissions collection without the
row of that id and with every other row as it was, in place; a second call
with the same id answers 200 and leaves the store as the first call left it;
no other collection changes. -/
theorem revokePermission_removes_row_idempotent
    (s : Store) (c : Context) (permID : ObjectID)
    (hids : (s.permissions.map FilePermission.ID).Nodup)
    (hparse : ObjectIDFromHex (c.Param "permissionId") = some permID) :
    revokePermission s c
      = ({ s with permissions := s.permissions.filter (fun p => p.ID != permID) },
          .success 200 none none) ∧
    (∀ p, p ∈ (revokePermission s c).1.permissions ↔ p ∈ s.permissions ∧ p.ID ≠ permID) ∧
    revokePermission (revokePermission s c).1 c
      = ((revokePermission s c).1, .success 200 none none) := by
  have hfirst : revokePermission s c
      = ({ s with permissions := s.permissions.filter (fun p => p.ID != permID) },
          .success 200 none none) := by
    unfold revokePermission
    simp only [hparse, Option.getD_some]
    rw [deleteOne_eq_filter_of_nodup FilePermission.ID permID s.permissions hids]
  rw [hfirst]
  refine ⟨rfl, ?_, ?_⟩
  · intro p
    simp only []
    rw [List.mem_filter]
    simp
  · unfold revokePermission
    simp only [hparse, Option.getD_some]
    rw [deleteOne_eq_self _ _ (filter_ne_nodup_mem FilePermission.ID permID s.permissions)]

/-- Witness for C18: the grant with id 31 is revoked, the one with id 32 stays. -/
theorem revokePermission_removes_row_idempotent_witness :
    revokePermission grantsStore revokeContext
      = ({ grantsStore with
            permissions := grantsStore.permissions.filter (fun p => p.ID != 31) },
          .success 200 none none) ∧
    (∀ p, p ∈ (revokePermission grantsStore revokeContext).1.permissions
      ↔ p ∈ grantsStore.permissions ∧ p.ID ≠ 31) ∧
    revokePermission (revokePermission grantsStore revokeContext).1 revokeContext
      = ((revokePermission grantsStore revokeContext).1, .success 200 none none) :=
  revokePermission_removes_row_idempotent grantsStore revokeContext 31
    (by decide) (by decide)

/-! ## Access requests -/

/-- C19, refuted as stated: a review with status `denied` by `carol` of the
request that `bob` approved answers 200 and overwrites the stored status,
reviewer and review time. -/
theorem reviewAccessRequest_overwrites_approved :
    reviewedStore.accessRequests.map
        (fun r => (r.ID, r.Status, r.ReviewedBy, r.ReviewedAt))
      = [(21, "approved", "bob", some 500)] ∧
    (reviewAccessRequest reviewedStore reviewContext (some "denied") 900).2
      = .success 200 none none ∧
    (reviewAccessRequest reviewedStore reviewContext (some "denied") 900).1.accessRequests.map
        (fun r => (r.ID, r.Status, r.ReviewedBy, r.ReviewedAt))
      = [(21, "denied", "carol", some 900)] := by
  decide

/-- C19 as amended: for a stored request whose status is already `approved`
or already `denied`, `reviewAccessRequest` with a submitted status `approved`
or `denied` does not fail: it answers 200, and the request then stored under
that id is the former one with `status`, `reviewed_by` and `reviewed_at`
replaced by the submitted status, the caller and the current time, its status
again one of `approved` and `denied`. -/
theorem reviewAccessRequest_overwrites_terminal_status
    (s : Store) (c : Context) (status : String) (now : Time) (r : FileAccessRequest)
    (hparse : ObjectIDFromHex (c.Param "requestId") = some r.ID)
    (hfind : findOne (fun q => q.ID == r.ID) s.accessRequests = some r)
    (hterminal : r.Status = "approved" ∨ r.Status = "denied")
    (hstatus : status = "approved" ∨ status = "denied") :
    (reviewAccessRequest s c (some status) now).2 = .success 200 none none ∧
    ∃ q : FileAccessRequest,
      findOne (fun q => q.ID == r.ID)
          (reviewAccessRequest s c (some status) now).1.accessRequests = some q ∧
      q = { r with Status := status, ReviewedBy := c.GetHeader "X-User-ID",
                   ReviewedAt := some now } ∧
      (q.Status = "approved" ∨ q.Status = "denied") ∧
      (status ≠ r.Status → q.Status ≠ r.Status) := by
  have _hterminal := hterminal
  unfold reviewAccessRequest
  simp only [hparse, Option.getD_some]
  have hupd := findOne_updateOne (fun q : FileAccessRequest => q.ID == r.ID)
    (fun q : FileAccessRequest =>
      { q with Status := status, ReviewedBy := c.GetHeader "X-User-ID",
               ReviewedAt := some now })
    (fun x hx => hx) s.accessRequests
  rw [hfind] at hupd
  exact ⟨trivial, _, hupd, rfl, hstatus, fun hne => hne⟩

/-- Witness for C19 as amended: the approved sample request is reviewed again
with status `denied`. -/
theorem reviewAccessRequest_overwrites_terminal_status_witness :
    (reviewAccessRequest reviewedStore reviewContext (some "denied") 900).2
      = .success 200 none none ∧
    ∃ q : FileAccessRequest,
      findOne (fun q => q.ID == 21)
          (reviewAccessRequest reviewedStore reviewContext (some "denied") 900).1.accessRequests
        = some q ∧
      q = { ID := 21, FileID := "F", RequesterID := "dave", Reason := "need it",
            Status := "denied", ReviewedBy := "carol", CreatedAt := 400,
            ReviewedAt := some 900 } ∧
      (q.Status = "approved" ∨ q.Status = "denied") ∧
      ("denied" ≠ "approved" → q.Status ≠ "approved") :=
  reviewAccessRequest_overwrites_terminal_status reviewedStore reviewContext "denied" 900
    { ID := 21, FileID := "F", RequesterID := "dave", Reason := "need it",
      Status := "approved", ReviewedBy := "bob", CreatedAt := 400,
      ReviewedAt := some 500 }
    (by decide) (by decide) (by decide) (by decide)

/-- C20: from the empty store, `createAccessRequest` stores a request with
status `pending`, and a following `reviewAccessRequest` whose body carries the
status `banana` answers 200 and stores `banana` as the status of the request. -/
theorem reviewAccessRequest_stores_any_status :
    (createAccessRequest {} requestContext "need it" 21 400).1.accessRequests.map
        (fun r => (r.ID, r.Status)) = [(21, "pending")] ∧
    (reviewAccessRequest (createAccessRequest {} requestContext "need it" 21 400).1
        reviewContext (some "banana") 900).2 = .success 200 none none ∧
    (runAccessRequestOps {} bananaOps).accessRequests.map
        (fun r => (r.ID, r.Status, r.ReviewedBy)) = [(21, "banana", "carol")] := by
  decide

/-! ## Frame of a review -/

/-- C21: in a store with unique access-request ids, `reviewAccessRequest` on a
stored request with a body that binds (status `approved` in particular, and a
pending request in particular) answers 200 and sets `status`, `reviewed_by`
(the caller) and `reviewed_at` (the current time) of that request; every other
access request is as before, and the permissions collection, like every other
collection, is unchanged. -/
theorem reviewAccessRequest_changes_only_that_request
    (s : Store) (c : Context) (status : String) (now : Time) (r : FileAccessRequest)
    (hids : (s.accessRequests.map FileAccessRequest.ID).Nodup)
    (hmem : r ∈ s.accessRequests)
    (hparse : ObjectIDFromHex (c.Param "requestId") = some r.ID) :
    reviewAccessRequest s c (some status) now
      = ({ s with accessRequests := s.accessRequests.map fun q =>
              if q = r then
                { q with Status := status, ReviewedBy := c.GetHeader "X-User-ID",
                         ReviewedAt := some now }
              else q },
          .success 200 none none) ∧
    (reviewAccessRequest s c (some status) now).1.permissions = s.permissions := by
  have hmain : reviewAccessRequest s c (some status) now
      = ({ s with accessRequests := s.accessRequests.map fun q =>
              if q = r then
                { q with Status := status, ReviewedBy := c.GetHeader "X-User-ID",
                         ReviewedAt := some now }
              else q },
          .success 200 none none) := by
    unfold reviewAccessRequest
    simp only [hparse, Option.getD_some]
    rw [updateOne_eq_map_of_nodup FileAccessRequest.ID _ r s.accessRequests hids hmem]
  rw [hmain]
  exact ⟨rfl, rfl⟩

/-- Witness for C21: the pending request of `dave` is approved by `carol`
while a grant is stored. -/
theorem reviewAccessRequest_changes_only_that_request_witness :
    reviewAccessRequest pendingStore reviewContext (some "approved") 900
      = ({ pendingStore with accessRequests := pendingStore.accessRequests.map fun q =>
              if q = { ID := 21, FileID := "F", RequesterID := "dave",
                       Reason := "need it", Status := "pending", CreatedAt := 400 } then
                { q with Status := "approved",
                         ReviewedBy := reviewContext.GetHeader "X-User-ID",
                         ReviewedAt := some 900 }
              else q },
          .success 200 none none) ∧
    (reviewAccessRequest pendingStore reviewContext (some "approved") 900).1.permissions
      = pendingStore.permissions :=
  reviewAccessRequest_changes_only_that_request pendingStore reviewContext "approved" 900
    { ID := 21, FileID := "F", RequesterID := "dave", Reason := "need it",
      Status := "pending", CreatedAt := 400 }
    (by decide) (by decide) (by decide)

/-! ## Aggregate accounting -/

theorem sumLong_of_range (xs : List Int) (h : minInt ≤ xs.sum ∧ xs.sum ≤ maxInt) :
    sumLong xs = .int64 xs.sum := by
  unfold sumLong
  rw [if_pos h]

theorem sumOnes_of_small (n : Nat) (h : (n : Int) ≤ 2 ^ 31 - 1) :
    sumOnes n = .int32 n := by
  unfold sumOnes
  rw [if_pos h]

/-- C22: as long as the total fits a 64-bit integer and the count a 32-bit
integer, `getStorageQuota` answers 200 with `total_size` the sum of `size`
over exactly the files with the requested `workspace_id` and no `deleted_at`,
`file_count` the number of those files (both 0 when there are none) and
`quota_limit` 10 * 1024^3, whatever the workspace. -/
theorem getStorageQuota_sums_live_files
    (s : Store) (c : Context)
    (hsum : minInt ≤ ((s.files.filter fun f =>
        f.WorkspaceID == c.Param "workspaceId" && f.DeletedAt.isNone).map
          fun f => f.Size).sum ∧
      ((s.files.filter fun f =>
        f.WorkspaceID == c.Param "workspaceId" && f.DeletedAt.isNone).map
          fun f => f.Size).sum ≤ maxInt)
    (hcount : ((s.files.filter fun f =>
        f.WorkspaceID == c.Param "workspaceId" && f.DeletedAt.isNone).length : Int)
          ≤ 2 ^ 31 - 1) :
    getStorageQuota s c
      = .success 200
          (some { workspace_id := c.Param "workspaceId",
                  total_size := ((s.files.filter fun f =>
                    f.WorkspaceID == c.Param "workspaceId" && f.DeletedAt.isNone).map
                      fun f => f.Size).sum,
                  file_count := (s.files.filter fun f =>
                    f.WorkspaceID == c.Param "workspaceId" && f.DeletedAt.isNone).length,
                  quota_limit := 10 * 1024 ^ 3 })
          none := by
  unfold getStorageQuota
  simp only []
  generalize (s.files.filter fun f =>
    f.WorkspaceID == c.Param "workspaceId" && f.DeletedAt.isNone) = matched at hsum hcount ⊢
  have hlimit : (10 * 1024 * 1024 * 1024 : Int) = 10 * 1024 ^ 3 := by norm_num
  rw [hlimit]
  cases matched with
  | nil =>
    simp only [List.isEmpty_nil, if_true, List.map_nil, List.sum_nil, List.length_nil,
      Nat.cast_zero]
  | cons f fs =>
    rw [sumLong_of_range _ hsum, sumOnes_of_small _ hcount]
    rfl

/-- Witness for C22: workspace `W` of the sample store holds two live files of
sizes 10 and 30, one file in the trash, and a file of another workspace. -/
theorem getStorageQuota_sums_live_files_witness :
    getStorageQuota quotaStore quotaContext
      = .success 200
          (some { workspace_id := "W", total_size := 40, file_count := 2,
                  quota_limit := 10737418240 })
          none :=
  (getStorageQuota_sums_live_files quotaStore quotaContext (by decide) (by decide)).trans
    (by decide)

/-- C23: when a File record with the requested `file_id` exists, `f` being the
one the collection returns for it, `findDuplicates` answers 200 with exactly
the stored files whose checksum equals that of `f` and whose `file_id` differs
from that of `f`, so `f` is not in the result and no such file is omitted;
when no File record has the requested `file_id` it answers 404. -/
theorem findDuplicates_returns_other_files_with_checksum
    (s : Store) (c : Context) (f : File)
    (hf : findOne (fun g => g.FileID == c.Param "id") s.files = some f) :
    (∃ dupes : List File,
      findDuplicates s c = .success 200 (some dupes) none ∧
      (∀ g, g ∈ dupes ↔ g ∈ s.files ∧ g.Checksum = f.Checksum ∧ g.FileID ≠ f.FileID) ∧
      f ∉ dupes) ∧
    ∀ c2 : Context, findOne (fun g => g.FileID == c2.Param "id") s.files = none →
      findDuplicates s c2 = .failure 404 "file not found" := by
  have hfid : f.FileID = c.Param "id" := by
    have := List.find?_some hf
    simpa using this
  constructor
  · refine ⟨s.files.filter fun g => g.Checksum == f.Checksum && g.FileID != c.Param "id",
      ?_, ?_, ?_⟩
    · unfold findDuplicates
      simp only []
      rw [hf]
    · intro g
      rw [List.mem_filter, hfid]
      simp
    · intro h
      have := (List.mem_filter.1 h).2
      simp [hfid] at this
  · intro c2 hnone
    unfold findDuplicates
    simp only []
    rw [hnone]

/-- Witness for C23: the duplicates of `F` in the sample store are `G` and
`K`, and the unknown file id `Z` is answered with 404. -/
theorem findDuplicates_returns_other_files_with_checksum_witness :
    (∃ dupes : List File,
      findDuplicates quotaStore quotaContext = .success 200 (some dupes) none ∧
      (∀ g, g ∈ dupes ↔ g ∈ quotaStore.files ∧ g.Checksum = "abc" ∧ g.FileID ≠ "F") ∧
      ({ ID := 50, FileID := "F", Size := 10, Checksum := "abc", WorkspaceID := "W",
         Status := "active", MetadataSize := some 10 } : File) ∉ dupes) ∧
    findDuplicates quotaStore unknownFileContext = .failure 404 "file not found" :=
  ⟨(findDuplicates_returns_other_files_with_checksum quotaStore quotaContext
      { ID := 50, FileID := "F", Size := 10, Checksum := "abc", WorkspaceID := "W",
        Status := "active", MetadataSize := some 10 } (by decide)).1,
    (findDuplicates_returns_other_files_with_checksum quotaStore quotaContext
      { ID := 50, FileID := "F", Size := 10, Checksum := "abc", WorkspaceID := "W",
        Status := "active", MetadataSize := some 10 } (by decide)).2
      unknownFileContext (by decide)⟩

/-! ## Version listing and deletion -/

theorem insertByVersionNumDesc_perm (v : FileVersion) :
    ∀ l : List FileVersion, (insertByVersionNumDesc v l).Perm (v :: l)
  | [] => List.Perm.refl _
  | w :: ws => by
    unfold insertByVersionNumDesc
    split
    · exact List.Perm.refl _
    · exact ((insertByVersionNumDesc_perm v ws).cons w).trans (List.Perm.swap v w ws)

theorem sortByVersionNumDesc_perm :
    ∀ l : List FileVersion, (sortByVersionNumDesc l).Perm l
  | [] => List.Perm.refl _
  | v :: vs => by
    unfold sortByVersionNumDesc
    exact (insertByVersionNumDesc_perm v _).trans ((sortByVersionNumDesc_perm vs).cons v)

theorem insertByVersionNumDesc_sorted (v : FileVersion) :
    ∀ l : List FileVersion, l.Pairwise (fun a b => b.VersionNum ≤ a.VersionNum) →
      (insertByVersionNumDesc v l).Pairwise (fun a b => b.VersionNum ≤ a.VersionNum)
  | [], _ => List.pairwise_singleton _ _
  | w :: ws, h => by
    unfold insertByVersionNumDesc
    rw [List.pairwise_cons] at h
    split
    · rename_i hle
      rw [List.pairwise_cons]
      refine ⟨?_, List.pairwise_cons.2 h⟩
      intro x hx
      rcases List.mem_cons.1 hx with rfl | hx
      · exact hle
      · exact le_trans (h.1 x hx) hle
    · rename_i hlt
      rw [List.pairwise_cons]
      refine ⟨?_, insertByVersionNumDesc_sorted v ws h.2⟩
      intro x hx
      have hx1 := (insertByVersionNumDesc_perm v ws).subset hx
      rcases List.mem_cons.1 hx1 with rfl | hx1
      · omega
      · exact h.1 x hx1

theorem sortByVersionNumDesc_sorted :
    ∀ l : List FileVersion,
      (sortByVersionNumDesc l).Pairwise (fun a b => b.VersionNum ≤ a.VersionNum)
  | [] => List.Pairwise.nil
  | v :: vs => by
    unfold sortByVersionNumDesc
    exact insertByVersionNumDesc_sorted v _ (sortByVersionNumDesc_sorted vs)

/-- C24: `listVersions` answers 200 with a list that holds exactly the stored
versions of the requested file, each as often as it is stored and none of
another file, ordered by `version_num` descending, so that its first element
carries the largest number stored for the file. -/
theorem listVersions_returns_versions_of_file_descending (s : Store) (c : Context) :
    ∃ listed : List FileVersion,
      listVersions s c = .success 200 (some listed) none ∧
      listed.Perm (s.versions.filter fun v => v.FileID == c.Param "id") ∧
      (∀ v, v ∈ listed ↔ v ∈ s.versions ∧ v.FileID = c.Param "id") ∧
      listed.Pairwise (fun a b => b.VersionNum ≤ a.VersionNum) ∧
      (∀ first, listed.head? = some first →
        ∀ v ∈ s.versions, v.FileID = c.Param "id" → v.VersionNum ≤ first.VersionNum) := by
  have hperm := sortByVersionNumDesc_perm (s.versions.filter fun v => v.FileID == c.Param "id")
  have hsorted :=
    sortByVersionNumDesc_sorted (s.versions.filter fun v => v.FileID == c.Param "id")
  have hmem : ∀ v, v ∈ sortByVersionNumDesc
        (s.versions.filter fun v => v.FileID == c.Param "id")
      ↔ v ∈ s.versions ∧ v.FileID = c.Param "id" := by
    intro v
    rw [hperm.mem_iff, List.mem_filter]
    simp
  refine ⟨_, rfl, hperm, hmem, hsorted, ?_⟩
  intro first hfirst v hv hvf
  have hvin := (hmem v).2 ⟨hv, hvf⟩
  generalize sortByVersionNumDesc
    (s.versions.filter fun v => v.FileID == c.Param "id") = listed at hsorted hfirst hvin
  cases listed with
  | nil => cases hvin
  | cons x xs =>
    simp only [List.head?_cons, Option.some.injEq] at hfirst
    subst hfirst
    rcases List.mem_cons.1 hvin with rfl | hvin
    · exact le_refl _
    · exact (List.pairwise_cons.1 hsorted).1 v hvin

theorem deleteVersion_of_parsed (s : Store) (c : Context) (versionID : ObjectID)
    (hids : (s.versions.map FileVersion.ID).Nodup)
    (hparse : ObjectIDFromHex (c.Param "versionId") = some versionID) :
    deleteVersion s c
      = ({ s with versions := s.versions.filter (fun v => v.ID != versionID) },
          .success 200 none none) := by
  unfold deleteVersion
  rw [hparse]
  simp only []
  rw [deleteOne_eq_filter_of_nodup FileVersion.ID versionID s.versions hids]

/-- C25: in a store with unique version ids, `deleteVersion` with a well-formed
id answers 200 and leaves the versions collection without the version of that
id; every other stored version, siblings of the same file included, is kept
as the same record (id, `version_num` and all other fields) and in the same
order, and no other collection changes. -/
theorem deleteVersion_removes_only_that_version
    (s : Store) (c : Context) (versionID : ObjectID)
    (hids : (s.versions.map FileVersion.ID).Nodup)
    (hparse : ObjectIDFromHex (c.Param "versionId") = some versionID) :
    deleteVersion s c
      = ({ s with versions := s.versions.filter (fun v => v.ID != versionID) },
          .success 200 none none) ∧
    (∀ v, v ∈ (deleteVersion s c).1.versions ↔ v ∈ s.versions ∧ v.ID ≠ versionID) ∧
    (deleteVersion s c).1.versions.Sublist s.versions := by
  rw [deleteVersion_of_parsed s c versionID hids hparse]
  refine ⟨rfl, ?_, List.filter_sublist _⟩
  intro v
  simp only []
  rw [List.mem_filter]
  simp

/-- Witness for C25: version 1 of `F` is deleted; version 3 of `F` and
version 7 of `G` stay. -/
theorem deleteVersion_removes_only_that_version_witness :
    deleteVersion demoStore deleteFirstContext
      = ({ demoStore with versions := demoStore.versions.filter (fun v => v.ID != 1) },
          .success 200 none none) ∧
    (∀ v, v ∈ (deleteVersion demoStore deleteFirstContext).1.versions
      ↔ v ∈ demoStore.versions ∧ v.ID ≠ 1) ∧
    (deleteVersion demoStore deleteFirstContext).1.versions.Sublist demoStore.versions :=
  deleteVersion_removes_only_that_version demoStore deleteFirstContext 1
    (by decide) (by decide)

/-! ## Input validation -/

/-- C26: `createComment` with an empty content and `addTag` with an empty tag
answer 400 and store nothing, but `addFileReaction` with an empty emoji
answers 201 and stores the reaction with the empty emoji. -/
theorem addFileReaction_accepts_empty_emoji :
    createComment {} demoContext "" "" 1 10 10 2 10
      = ({}, .failure 400 "field validation failed on the required tag") ∧
    addTag {} demoContext "" 1 10
      = ({}, .failure 400 "field validation failed on the required tag") ∧
    (addFileReaction {} reactionContext (some "") 1 10).2
      = .success 201
          (some { ID := 1, FileID := "F", UserID := "dave", Emoji := "", CreatedAt := 10 })
          none ∧
    (addFileReaction {} reactionContext (some "") 1 10).1.reactions
      = [{ ID := 1, FileID := "F", UserID := "dave", Emoji := "", CreatedAt := 10 }] := by
  decide

/-! ## Numbering after a deletion -/

/-- C27, refuted as stated: file `F` holds versions 1 and 3; after
`deleteVersion` removes version 3, which holds the largest number,
`createVersion` assigns 2, not the number 3 of the deleted version. -/
theorem createVersion_after_delete_latest_not_reused :
    (versionsOf demoStore "F").map (fun v => (v.ID, v.VersionNum)) = [(1, 1), (3, 3)] ∧
    (deleteVersion demoStore deleteLatestContext).1.versions.map
        (fun v => (v.ID, v.FileID, v.VersionNum)) = [(1, "F", 1), (2, "G", 7)] ∧
    (createVersion (deleteVersion demoStore deleteLatestContext).1 demoContext "again"
        9 100 10 100).1.versions.map (fun v => (v.ID, v.FileID, v.VersionNum))
      = [(1, "F", 1), (2, "G", 7), (9, "F", 2)] := by
  decide

/-- C27 as amended: in a store with unique version ids and numbers below the
largest Go int, after `deleteVersion` removes the stored version `d` and
`createVersion` is called for the file of `d` (fresh id), exactly one version
is appended to the remaining ones; its number is 1 when no version of the
file remains and otherwise one more than the largest remaining number of the
file (so the number of `d` is reused exactly when that sum equals it), and
when another version of the file holds a larger number than `d`, the new
number is larger than that of `d`. -/
theorem createVersion_after_deleteVersion_number
    (s : Store) (cd cc : Context) (d : FileVersion) (comment : String)
    (oid : ObjectID) (now : Time) (logOid : ObjectID) (logNow : Time)
    (hids : (s.versions.map FileVersion.ID).Nodup)
    (hmem : d ∈ s.versions)
    (hparse : ObjectIDFromHex (cd.Param "versionId") = some d.ID)
    (hfile : cc.Param "id" = d.FileID)
    (hfresh : ∀ v ∈ s.versions, v.ID ≠ oid)
    (hint : ∀ v ∈ s.versions, v.FileID = d.FileID →
      minInt ≤ v.VersionNum ∧ v.VersionNum < maxInt) :
    ∃ v : FileVersion,
      (createVersion (deleteVersion s cd).1 cc comment oid now logOid logNow).1.versions
        = s.versions.filter (fun w => w.ID != d.ID) ++ [v] ∧
      v.FileID = d.FileID ∧
      ((∀ w ∈ s.versions, w.FileID = d.FileID → w = d) → v.VersionNum = 1) ∧
      (∀ w ∈ s.versions, w ≠ d → w.FileID = d.FileID →
        (∀ u ∈ s.versions, u ≠ d → u.FileID = d.FileID → u.VersionNum ≤ w.VersionNum) →
        v.VersionNum = w.VersionNum + 1 ∧
          (v.VersionNum = d.VersionNum ↔ w.VersionNum + 1 = d.VersionNum)) ∧
      ((∃ u ∈ s.versions, u.FileID = d.FileID ∧ d.VersionNum < u.VersionNum) →
        d.VersionNum < v.VersionNum) := by
  have hdel := deleteVersion_of_parsed s cd d.ID hids hparse
  have hrem : ∀ w, w ∈ (deleteVersion s cd).1.versions ↔ w ∈ s.versions ∧ w ≠ d := by
    intro w
    rw [hdel]
    simp only []
    rw [List.mem_filter]
    constructor
    · rintro ⟨hw, hne⟩
      refine ⟨hw, ?_⟩
      intro h
      subst h
      simp at hne
    · rintro ⟨hw, hne⟩
      refine ⟨hw, ?_⟩
      have hid : w.ID ≠ d.ID := fun h => hne (List.inj_on_of_nodup_map hids hw hmem h)
      simpa using hid
  have hfresh1 : ∀ v ∈ (deleteVersion s cd).1.versions, v.ID ≠ oid :=
    fun v hv => hfresh v ((hrem v).1 hv).1
  have hint1 : ∀ v ∈ (deleteVersion s cd).1.versions, v.FileID = cc.Param "id" →
      minInt ≤ v.VersionNum ∧ v.VersionNum < maxInt :=
    fun v hv hvf => hint v ((hrem v).1 hv).1 (hvf.trans hfile)
  rw [createVersion_versions_of_fresh (deleteVersion s cd).1 cc comment oid now logOid
    logNow hfresh1]
  simp only [logFileActivity_versions]
  refine ⟨{ ID := oid, FileID := cc.Param "id",
            VersionNum := nextVersionNum (deleteVersion s cd).1 (cc.Param "id"),
            UploadedBy := cc.Query "user_id", Comment := comment, CreatedAt := now },
          ?_, hfile, ?_, ?_, ?_⟩
  · rw [hdel]
  · intro honly
    rcases nextVersionNum_spec (deleteVersion s cd).1 (cc.Param "id") hint1 with
      ⟨_, h1⟩ | ⟨w, hw, hwf, _, _⟩
    · exact h1
    · have hw1 := (hrem w).1 hw
      exact absurd (honly w hw1.1 (hwf.trans hfile)) hw1.2
  · intro w hw hne hwf hmax
    have hwrem : w ∈ (deleteVersion s cd).1.versions := (hrem w).2 ⟨hw, hne⟩
    rcases nextVersionNum_spec (deleteVersion s cd).1 (cc.Param "id") hint1 with
      ⟨hnil, _⟩ | ⟨m, hm, hmf, hmmax, hnext⟩
    · have : w ∈ versionsOf (deleteVersion s cd).1 (cc.Param "id") :=
        List.mem_filter.2 ⟨hwrem, by simpa using hwf.trans hfile.symm⟩
      rw [hnil] at this
      cases this
    · have hm1 := (hrem m).1 hm
      have h1 : m.VersionNum ≤ w.VersionNum := hmax m hm1.1 hm1.2 (hmf.trans hfile)
      have h2 : w.VersionNum ≤ m.VersionNum := hmmax w hwrem (hwf.trans hfile.symm)
      have heq : nextVersionNum (deleteVersion s cd).1 (cc.Param "id")
          = w.VersionNum + 1 := by omega
      simp [heq]
  · rintro ⟨u, hu, huf, hlt⟩
    have hune : u ≠ d := by
      intro h
      subst h
      omega
    have hurem : u ∈ (deleteVersion s cd).1.versions := (hrem u).2 ⟨hu, hune⟩
    rcases nextVersionNum_spec (deleteVersion s cd).1 (cc.Param "id") hint1 with
      ⟨hnil, _⟩ | ⟨m, hm, hmf, hmmax, hnext⟩
    · have : u ∈ versionsOf (deleteVersion s cd).1 (cc.Param "id") :=
        List.mem_filter.2 ⟨hurem, by simpa using huf.trans hfile.symm⟩
      rw [hnil] at this
      cases this
    · have h2 : u.VersionNum ≤ m.VersionNum := hmmax u hurem (huf.trans hfile.symm)
      simp only [hnext]
      omega

/-- Witness for C27 as amended: version 3 of `F` (ids 1 and 3 stored) is
deleted and a version of `F` created. -/
theorem createVersion_after_deleteVersion_number_witness :
    ∃ v : FileVersion,
      (createVersion (deleteVersion demoStore deleteLatestContext).1 demoContext "again"
          9 100 10 100).1.versions
        = demoStore.versions.filter (fun w => w.ID != 3) ++ [v] ∧
      v.FileID = "F" ∧
      ((∀ w ∈ demoStore.versions, w.FileID = "F" →
          w = { ID := 3, FileID := "F", VersionNum := 3, StorageKey := "k3", Size := 13,
                Checksum := "c3" }) → v.VersionNum = 1) ∧
      (∀ w ∈ demoStore.versions,
        w ≠ { ID := 3, FileID := "F", VersionNum := 3, StorageKey := "k3", Size := 13,
              Checksum := "c3" } → w.FileID = "F" →
        (∀ u ∈ demoStore.versions,
          u ≠ { ID := 3, FileID := "F", VersionNum := 3, StorageKey := "k3", Size := 13,
                Checksum := "c3" } → u.FileID = "F" → u.VersionNum ≤ w.VersionNum) →
        v.VersionNum = w.VersionNum + 1 ∧
          (v.VersionNum = 3 ↔ w.VersionNum + 1 = 3)) ∧
      ((∃ u ∈ demoStore.versions, u.FileID = "F" ∧ 3 < u.VersionNum) →
        3 < v.VersionNum) :=
  createVersion_after_deleteVersion_number demoStore deleteLatestContext demoContext
    { ID := 3, FileID := "F", VersionNum := 3, StorageKey := "k3", Size := 13,
      Checksum := "c3" }
    "again" 9 100 10 100 (by decide) (by decide) (by decide) (by decide) (by decide)
    (by decide)

/-! ## Trash and accounting -/

/-- C28: the live file `F` of workspace `W` is soft-deleted by
`bulkDeleteFiles`, which sets `status = deleted` and `deleted_at`, and restored
by `restoreFromTrash`, which clears `deleted_at` only.  `getStorageQuota`
answers as before the deletion (2 files, 40 bytes), but
`getWorkspaceFileStats`, which selects on `status`, still leaves `F` out
(1 file, 30 bytes instead of 2 files, 40 bytes). -/
theorem restoreFromTrash_leaves_status_deleted :
    getStorageQuota quotaStore quotaContext
      = .success 200
          (some { workspace_id := "W", total_size := 40, file_count := 2,
                  quota_limit := 10737418240 }) none ∧
    getWorkspaceFileStats quotaStore quotaContext
      = .success 200 (some { total_files := 2, total_size := 40 }) none ∧
    (bulkDeleteFiles quotaStore (some [ObjectID.Hex 50]) 700).1.files.map
        (fun f => (f.FileID, f.Status, f.DeletedAt))
      = [("F", "deleted", some 700), ("G", "deleted", some 5), ("H", "active", none),
         ("K", "active", none)] ∧
    deletedThenRestoredStore.files.map (fun f => (f.FileID, f.Status, f.DeletedAt))
      = [("F", "deleted", none), ("G", "deleted", some 5), ("H", "active", none),
         ("K", "active", none)] ∧
    getStorageQuota deletedThenRestoredStore quotaContext
      = .success 200
          (some { workspace_id := "W", total_size := 40, file_count := 2,
                  quota_limit := 10737418240 }) none ∧
    getWorkspaceFileStats deletedThenRestoredStore quotaContext
      = .success 200 (some { total_files := 1, total_size := 30 }) none := by
  decide

end FileService
